import Mathlib

/-!
Verification of the distro-detect distribution classification engine.

The Go source (package `linux`: `discover.go` and `distrochecks.go`) is
shallowly embedded below.  Strings are modelled as lists of characters
(`Str`), the two key/value property maps as association lists with unique
keys (`RD`), and the filesystem visible to the File Resolver as an
association list from path to file contents (`FS`): a path present in the
list is a readable regular file with those contents, a path absent is a
failed stat/open (both of which the Go code treats as "no readable
candidate").  Go's possible runtime panic (index out of range on a nil
regex match in `parseRedhatReleaseContents`) is modelled by `Option`:
`none` is a crash of the process, `some` a normal return.
-/

set_option linter.unusedVariables false

/-- Character sequences, the model of Go strings and byte slices. -/
abbrev Str := List Char

/-- Conversion from Lean string literals to the model type. -/
def str (s : String) : Str := s.data

/-- Whitespace for Go's regexp class backslash-s: tab, newline, form feed,
carriage return and space. -/
def goSpace (c : Char) : Bool :=
  c == ' ' || c == '\t' || c == '\n' || c == '\r' || c == Char.ofNat 12

/-- Go `unicode.IsSpace` (the Unicode White_Space property), used by
`strings.TrimSpace`. -/
def uniSpace (c : Char) : Bool :=
  c == ' ' || c == '\t' || c == '\n' || c == Char.ofNat 11 ||
  c == Char.ofNat 12 || c == '\r' || c == Char.ofNat 133 ||
  c == Char.ofNat 160 || c == Char.ofNat 0x1680 ||
  (0x2000 ≤ c.toNat && c.toNat ≤ 0x200a) || c == Char.ofNat 0x2028 ||
  c == Char.ofNat 0x2029 || c == Char.ofNat 0x202f ||
  c == Char.ofNat 0x205f || c == Char.ofNat 0x3000

/-- Drop matching characters from the right end. -/
def trimEnd (p : Char → Bool) (s : Str) : Str := (s.reverse.dropWhile p).reverse

/-- Go `strings.TrimFunc`-style two-sided trim: drop matching characters
from both ends (used for `strings.TrimSpace` and `strings.Trim`). -/
def trimBy (p : Char → Bool) (s : Str) : Str := trimEnd p (s.dropWhile p)

/-- Go `strings.TrimSpace`. -/
def trimSpaceGo (s : Str) : Str := trimBy uniSpace s

/-- Go `strings.Trim(s, "\"")`: removes every leading and trailing double
quote character. -/
def trimQuotes (s : Str) : Str := trimBy (· == '"') s

/-- Go `strings.HasPrefix`. -/
def hasPref (p s : Str) : Bool := s.take p.length == p

/-- Substring containment (used only to state properties about the BusyBox
binary signature). -/
def hasSub (needle : Str) : Str → Bool
  | [] => needle == []
  | c :: rest => hasPref needle (c :: rest) || hasSub needle rest

/-- `ReleaseDetails`: a Go `map[string]string`, modelled as an association
list with unique keys. -/
abbrev RD := List (Str × Str)

/-- Go map read `m[k]`: the zero value (empty string) when the key is absent. -/
def getRD (m : RD) (k : Str) : Str :=
  match m.find? (fun p => p.1 == k) with
  | some p => p.2
  | none => []

/-- Go map write `m[k] = v` (overwrites, keeps keys unique). -/
def insertRD (m : RD) (k v : Str) : RD :=
  (m.filter (fun p => !(p.1 == k))) ++ [(k, v)]

/-- The filesystem seen through the File Resolver: path to contents of a
readable regular file. -/
abbrev FS := List (Str × Str)

/-- `readFileFunc` / `readBinaryFileFunc`: try the candidate paths in order
and return the contents of the first readable one; `none` when no candidate
resolves (file absent, a directory, or unreadable — all treated as a
non-match signal by every caller). -/
def readFileFunc (fs : FS) (paths : List Str) : Option Str :=
  paths.findSome? (fun p => (fs.find? (fun e => e.1 == p)).map (·.2))

/-- The Result Record (`LinuxDistro` in the source). -/
structure LinuxDistro where
  Name : Str
  ID : Str
  Version : Str
  LsbRelease : RD
  OsRelease : RD
deriving DecidableEq, Repr

/-- The Go zero value `LinuxDistro` returned by every detector on a
non-match (nil maps modelled as empty maps). -/
def emptyDistro : LinuxDistro := ⟨[], [], [], [], []⟩

/-!
The key/value splitter regex `equalsSplitter`:
`^\s*(\S+)\s*=\s*([\S ]+)\s*` with Go (leftmost-first, greedy with
backtracking) submatch semantics.  Derivation used for the embedding:

* the leading `\s*` consumes exactly the maximal whitespace prefix (it
  cannot stop earlier, because `(\S+)` refuses a whitespace character);
* `(\S+)` starts at the first non-whitespace character; let `R` be the
  maximal non-whitespace run there.  Greedily the engine tries the key
  `R.take k` for `k = |R|` first (the `=` must then follow the whitespace
  run after `R`), then for decreasing `k < |R|` with `R[k] = '='` (the
  `\s*` before `=` is forced empty inside the run), `k ≥ 1`;
* after the consumed `=`, `\s*` takes the maximal whitespace run, then
  `([\S ]+)` takes the maximal run of characters that are a space or
  non-whitespace; if nothing is left it backtracks into the whitespace run,
  which only trailing spaces of that run can satisfy;
* if the value part fails for one `k` the engine backtracks to the next
  smaller admissible `k`.
-/

/-- The class `[\S ]` of the value capture group. -/
def svClass (c : Char) : Bool := !goSpace c || c == ' '

/-- Matches `\s*([\S ]+)` against `u` (the text after the consumed `=`),
returning the capture of the group. -/
def valueCapture (u : Str) : Option Str :=
  let w := u.takeWhile goSpace
  let rest := u.drop w.length
  match rest with
  | _ :: _ => some (rest.takeWhile svClass)
  | [] =>
    match w.reverse.findIdx? (· == ' ') with
    | some j => some ((w.drop (w.length - 1 - j)).takeWhile (· == ' '))
    | none => none

/-- One key-split attempt: key `R.take k`, then `\s*=\s*([\S ]+)`. -/
def tryK (R tail : Str) (k : Nat) : Option (Str × Str) :=
  if k = R.length then
    match tail.drop (tail.takeWhile goSpace).length with
    | '=' :: u => (valueCapture u).map (fun v => (R, v))
    | _ => none
  else if R[k]? = some '=' ∧ 1 ≤ k then
    (valueCapture (R.drop (k + 1) ++ tail)).map (fun v => (R.take k, v))
  else none

/-- Key-split attempts for `k = hi, hi-1, …, 1` in that (greedy) order. -/
def tryKs (R tail : Str) : Nat → Option (Str × Str)
  | 0 => none
  | k + 1 => (tryK R tail (k + 1)).orElse (fun _ => tryKs R tail k)

/-- `equalsSplitter.FindStringSubmatch`: the two captures (key, raw value)
of `^\s*(\S+)\s*=\s*([\S ]+)\s*`, or `none` when the line does not match. -/
def equalsSplit (s : Str) : Option (Str × Str) :=
  let t := s.dropWhile goSpace
  let R := t.takeWhile (fun c => !goSpace c)
  let tail := t.drop R.length
  if R = [] then none else tryKs R tail R.length

/-- `splitEqualsKeyVal`: key and cooked value of one line, `none` for the
error returns (blank line, comment line, line not matching the regex). -/
def splitEqualsKeyVal (line : Str) : Option (Str × Str) :=
  if line = [] then none
  else if line.head? = some '#' then none
  else
    match equalsSplit line with
    | none => none
    | some (k, v) => some (k, trimQuotes (trimSpaceGo v))

/-- Strip one trailing carriage return (`dropCR` of `bufio.ScanLines`). -/
def dropCR (l : Str) : Str :=
  if l.getLast? = some '\r' then l.dropLast else l

/-- The lines a `bufio.Scanner` with `ScanLines` produces: split on
newline, no empty token after a final newline, one trailing `\r` dropped
per line. -/
def splitLines (s : Str) : List Str :=
  if s = [] then []
  else
    let parts := s.splitOn '\n'
    (if s.getLast? = some '\n' then parts.dropLast else parts).map dropCR

/-- `parseOSRelease`: accumulate the successfully split lines into a map,
later duplicates overwriting earlier ones. -/
def parseOSRelease (contents : Str) : RD :=
  (splitLines contents).foldl
    (fun m line =>
      match splitEqualsKeyVal line with
      | some (k, v) => insertRD m k v
      | none => m)
    []

/-!
The release-line regex `releaseSplitter`:
`^(.+) (release|version)? (\S+)\s*(\S+)?` with Go submatch semantics.
`(.+)` cannot cross a newline, so its end lies inside the first line; the
engine tries the split position (the literal space after the first group)
from right to left.  At a given split it tries the optional group as
`release`, then `version`, then empty, each followed by the literal space
and a non-whitespace character for `(\S+)`; the two final greedy pieces
`\s*` and `(\S+)?` never need backtracking.  `FindStringSubmatch` returns
`nil` when nothing matches — the caller indexes the result unconditionally,
which is the one reachable panic of the classification core.
-/

/-- Attempt the part of `releaseSplitter` after the first literal space:
`(release|version)? (\S+)\s*(\S+)?` against `t`; returns
(group2, group3, consumed whitespace, group4). -/
def relTryOpt (t : Str) : Option (Str × Str × Str × Str) :=
  ([str "release", str "version", []].findSome? (fun g2 =>
    if hasPref (g2 ++ [' ']) t then
      let u := t.drop (g2.length + 1)
      match u with
      | c :: _ =>
        if goSpace c then none
        else
          let g3 := u.takeWhile (fun c => !goSpace c)
          let v := u.drop g3.length
          let ws := v.takeWhile goSpace
          let g4 := (v.drop ws.length).takeWhile (fun c => !goSpace c)
          some (g2, g3, ws, g4)
      | [] => none
    else none))

/-- `releaseSplitter.FindStringSubmatch`: full match and the four captures,
`none` when the contents do not match. -/
def releaseSplit (s : Str) : Option (Str × Str × Str × Str × Str) :=
  let firstLine := s.takeWhile (· ≠ '\n')
  let cands := (List.range firstLine.length).filter
    (fun i => 1 ≤ i && firstLine.get? i == some ' ')
  cands.reverse.findSome? (fun i =>
    (relTryOpt (s.drop (i + 1))).map (fun (g2, g3, ws, g4) =>
      (s.take i ++ [' '] ++ g2 ++ [' '] ++ g3 ++ ws ++ g4,
       s.take i, g2, g3, g4)))

/-- `parseRedhatReleaseContents`: `none` models the Go panic (indexing
`matches[0]` of a nil `FindStringSubmatch` result); otherwise the match
flag and the version (`matches[3]` trimmed — with four capture groups the
match slice always has length 5, so the `"unknown"` branch is dead code). -/
def parseRedhatReleaseContents (contents expectedDistro : Str) :
    Option (Bool × Str) :=
  match releaseSplit contents with
  | none => none
  | some (m0, _, _, g3, _) =>
    if hasPref expectedDistro m0 then some (true, trimSpaceGo g3)
    else some (false, [])

/-- Leftmost match of the CRUX regex
`\s*echo "CRUX version ([0-9.]+)"\s*` in one line: the literal
`echo "CRUX version ` followed by a nonempty digit/dot run and a closing
quote (the surrounding `\s*` always match and do not constrain the
captures). -/
def cruxLineVersion : Str → Option Str
  | [] => none
  | c :: rest =>
    let lit := str "echo \"CRUX version "
    if hasPref lit (c :: rest) then
      let afterLit := (c :: rest).drop lit.length
      let run := afterLit.takeWhile (fun c => c.isDigit || c == '.')
      if run ≠ [] && (afterLit.drop run.length).head? == some '"' then
        some run
      else cruxLineVersion rest
    else cruxLineVersion rest

/-- Leftmost-first, greedy match of the Source Mage regex `.*\((.+)\).*`
in one line: the leading greedy `.*` picks the last `(` that still leaves
a nonempty group closed by a `)`; the greedy `(.+)` then extends to the
last `)` of the line. -/
def smageCapture (l : Str) : Option Str :=
  match (List.range l.length).filter (fun q => l.get? q == some ')') |>.getLast? with
  | none => none
  | some q =>
    match (List.range l.length).filter
        (fun p => l.get? p == some '(' && p + 2 ≤ q) |>.getLast? with
    | none => none
    | some p => some ((l.drop (p + 1)).take (q - (p + 1)))

/-- Match of the MX regex `(\S+)-([0-9.]+)` at one start position: split
the non-whitespace run at the last `-` that is followed by a digit or
dot. -/
def mxMatchHere (t : Str) : Option (Str × Str) :=
  let R := t.takeWhile (fun c => !goSpace c)
  match (List.range R.length).filter (fun k =>
      1 ≤ k && R.get? k == some '-' &&
      (R.get? (k + 1)).any (fun c => c.isDigit || c == '.')) |>.getLast? with
  | none => none
  | some k => some (R.take k, (R.drop (k + 1)).takeWhile (fun c => c.isDigit || c == '.'))

/-- Leftmost match of the MX regex `(\S+)-([0-9.]+)` in the contents of
`/etc/mx-version`: captures (group1, group2). -/
def mxMatch : Str → Option (Str × Str)
  | [] => none
  | c :: rest =>
    match mxMatchHere (c :: rest) with
    | some r => some r
    | none => mxMatch rest

/-- A detector: a function of the filesystem and the two property maps;
`none` models a Go panic, `some (matched, record)` a normal return. -/
abbrev Det := FS → RD → RD → Option (Bool × LinuxDistro)

def IsAlpine : Det := fun fs lsb osr =>
  if getRD osr (str "ID") = str "alpine" then
    some (true, ⟨str "Alpine Linux", str "alpine", getRD osr (str "VERSION_ID"), lsb, osr⟩)
  else
    match readFileFunc fs [str "/etc/alpine-release"] with
    | some content =>
      some (true, ⟨str "Alpine Linux", str "alpine", trimSpaceGo content, lsb, osr⟩)
    | none => some (false, emptyDistro)

def IsAlt : Det := fun fs lsb osr =>
  if getRD osr (str "ID") = str "altlinux" then
    some (true, ⟨str "ALT Starterkit", str "altlinux", getRD osr (str "VERSION_ID"), lsb, osr⟩)
  else some (false, emptyDistro)

def IsAmazonLinux : Det := fun fs lsb osr =>
  if getRD osr (str "ID") ≠ str "amzn" then some (false, emptyDistro)
  else some (true, ⟨str "Amazon Linux", str "amzn", getRD osr (str "VERSION_ID"), lsb, osr⟩)

def IsAndroid : Det := fun fs lsb osr =>
  match readFileFunc fs [str "/system/build.prop"] with
  | some contents =>
    let releaseInfo := parseOSRelease contents
    let version :=
      if getRD releaseInfo (str "ro.com.google.gmsversion") ≠ [] then
        getRD releaseInfo (str "ro.com.google.gmsversion")
      else if getRD releaseInfo (str "ro.build.version.release") ≠ [] then
        getRD releaseInfo (str "ro.build.version.release")
      else str "unknown"
    some (true, ⟨str "Android", str "android", version, lsb, osr⟩)
  | none => some (false, emptyDistro)

def IsArchLinux : Det := fun fs lsb osr =>
  if getRD osr (str "ID") ≠ str "arch" then some (false, emptyDistro)
  else some (true, ⟨str "Arch Linux", str "arch", str "rolling", lsb, osr⟩)

/-- State of the BusyBox signature scan. -/
structure BBState where
  matchedPos : Nat
  foundBusyBox : Bool
  foundVersion : Bool
  version : Str
deriving DecidableEq, Repr

/-- The literal signature `"BusyBox v"` (9 bytes). -/
def bbSearch : Str := str "BusyBox v"

/-- The inner loop of `IsBusyBox` over the processed bytes of one chunk
(`for i := 0; matchedPos < searchBytesSize && i < n-1; i++`), including its
two `break` statements: on a disqualifying byte after fewer than 6 version
characters the signature state is reset, on a signature mismatch the rest
of the chunk is abandoned with the partial `matchedPos` kept. -/
def scanChunkAux (st : BBState) : Str → BBState
  | [] => st
  | c :: rest =>
    if st.matchedPos < 9 then
      if st.foundBusyBox then
        if c.isDigit || c == '.' then
          scanChunkAux { st with version := st.version ++ [c] } rest
        else if st.version.length < 6 then
          scanChunkAux { st with foundBusyBox := false, matchedPos := 0 } rest
        else { st with foundVersion := true }
      else if bbSearch.get? st.matchedPos = some c then
        if st.matchedPos + 1 = 9 then scanChunkAux { st with foundBusyBox := true } rest
        else scanChunkAux { st with matchedPos := st.matchedPos + 1 } rest
      else st
    else st

/-- The outer read loop of `IsBusyBox`: each `Read` fills the 14-byte
buffer (`searchBytesSize+5`) with the next chunk of the file, the inner
loop visits only the first `n-1` bytes of a chunk of size `n`, and the
loop stops early once both flags are set. -/
def scanChunks (st : BBState) : List Str → BBState
  | [] => st
  | chunk :: rest =>
    let st2 := scanChunkAux st (chunk.take (chunk.length - 1))
    if st2.foundBusyBox && st2.foundVersion then st2
    else scanChunks st2 rest

/-- Split a byte sequence into chunks of 14 (the successive results of
`reader.Read` on the 14-byte buffer); fuel-driven so that it reduces. -/
def chunksOfAux : Nat → Str → List Str
  | 0, _ => []
  | _, [] => []
  | fuel + 1, l => l.take 14 :: chunksOfAux fuel (l.drop 14)

/-- The chunk sequence of a file's contents. -/
def chunksOf (l : Str) : List Str := chunksOfAux l.length l

def IsBusyBox : Det := fun fs lsb osr =>
  match readFileFunc fs [str "/etc/os-release", str "/etc/lsb-release"] with
  | some _ => some (false, emptyDistro)
  | none =>
    match readFileFunc fs [str "/bin/true"] with
    | none => some (false, emptyDistro)
    | some contents =>
      if (scanChunks ⟨0, false, false, []⟩ (chunksOf contents)).foundBusyBox then
        some (true, ⟨str "BusyBox", str "busybox",
          'v' :: (scanChunks ⟨0, false, false, []⟩ (chunksOf contents)).version, lsb, osr⟩)
      else some (false, emptyDistro)

def IsOracleLinux : Det := fun fs lsb osr =>
  if getRD osr (str "ID") = str "ol" ∧ getRD osr (str "VERSION_ID") ≠ [] then
    some (true, ⟨str "Oracle Linux", str "ol", getRD osr (str "VERSION_ID"), lsb, osr⟩)
  else
    match readFileFunc fs [str "/etc/oracle-release"] with
    | some contents =>
      match parseRedhatReleaseContents contents (str "Oracle Linux") with
      | none => none
      | some (true, version) =>
        some (true, ⟨str "Oracle Linux", str "ol", version, lsb, osr⟩)
      | some (false, _) => some (false, emptyDistro)
    | none => some (false, emptyDistro)

def IsCentOS : Det := fun fs lsb osr =>
  match IsOracleLinux fs lsb osr with
  | none => none
  | some (true, distro) => some (true, distro)
  | some (false, _) =>
    match readFileFunc fs [str "/etc/centos-release", str "/etc/redhat-release"] with
    | some contents =>
      match parseRedhatReleaseContents contents (str "CentOS") with
      | none => none
      | some (true, version) =>
        some (true, ⟨str "CentOS Linux", str "centos", version, lsb, osr⟩)
      | some (false, _) => some (false, emptyDistro)
    | none => some (false, emptyDistro)

def IsClearLinux : Det := fun fs lsb osr =>
  if getRD osr (str "ID") = str "clear-linux-os" then
    some (true, ⟨str "Clear Linux OS", str "clear-linux-os", getRD osr (str "VERSION_ID"), lsb, osr⟩)
  else some (false, emptyDistro)

def IsCrux : Det := fun fs lsb osr =>
  match readFileFunc fs [str "/usr/bin/crux"] with
  | some contents =>
    let version :=
      ((splitLines contents).findSome? (fun line =>
        if line = [] || hasPref (str "#") line then none
        else cruxLineVersion line)).getD (str "unknown")
    some (true, ⟨str "CRUX", str "crux", version, lsb, osr⟩)
  | none => some (false, emptyDistro)

def IsMXLinux : Det := fun fs lsb osr =>
  if getRD lsb (str "DISTRIB_ID") = str "MX" then
    some (true, ⟨str "MX Linux", str "mx", getRD lsb (str "DISTRIB_RELEASE"), lsb, osr⟩)
  else
    match readFileFunc fs [str "/etc/mx-version"] with
    | some content =>
      match mxMatch content with
      | some (g1, g2) =>
        if g1 = str "MX" then
          some (true, ⟨str "MX Linux", str "mx", g2, lsb, osr⟩)
        else some (false, emptyDistro)
      | none => some (false, emptyDistro)
    | none => some (false, emptyDistro)

def IsDebian : Det := fun fs lsb osr =>
  match IsMXLinux fs lsb osr with
  | none => none
  | some (true, distro) => some (true, distro)
  | some (false, _) =>
    match readFileFunc fs [str "/etc/debian_version"] with
    | none => some (false, emptyDistro)
    | some versionContents =>
      match readFileFunc fs [str "/etc/issue"] with
      | some issueContents =>
        if !hasPref (str "Debian") issueContents then some (false, emptyDistro)
        else if getRD osr (str "ID") ≠ str "debian" ∧ getRD osr (str "ID") ≠ [] then
          some (false, emptyDistro)
        else some (true,
          ⟨str "Debian GNU/Linux", str "debian", trimSpaceGo versionContents, lsb, osr⟩)
      | none =>
        if getRD osr (str "ID") ≠ str "debian" ∧ getRD osr (str "ID") ≠ [] then
          some (false, emptyDistro)
        else some (true,
          ⟨str "Debian GNU/Linux", str "debian", trimSpaceGo versionContents, lsb, osr⟩)

def IsFedora : Det := fun fs lsb osr =>
  if getRD osr (str "ID") = str "fedora" then
    some (true, ⟨str "Fedora", str "fedora", getRD osr (str "VERSION_ID"), lsb, osr⟩)
  else
    match IsOracleLinux fs lsb osr with
    | none => none
    | some (true, distro) => some (true, distro)
    | some (false, _) =>
      match readFileFunc fs [str "/etc/redhat-release"] with
      | some contents =>
        match parseRedhatReleaseContents contents (str "Fedora") with
        | none => none
        | some (true, version) =>
          some (true, ⟨str "Fedora", str "fedora", version, lsb, osr⟩)
        | some (false, _) => some (false, emptyDistro)
      | none => some (false, emptyDistro)

def IsKali : Det := fun fs lsb osr =>
  if getRD osr (str "ID") = str "kali" then
    some (true, ⟨str "Kali GNU/Linux", str "kali", getRD osr (str "VERSION_ID"), lsb, osr⟩)
  else some (false, emptyDistro)

def IsGentoo : Det := fun fs lsb osr =>
  if getRD osr (str "ID") = str "gentoo" then
    match readFileFunc fs [str "/etc/gentoo-release"] with
    | some contents =>
      match parseRedhatReleaseContents contents (str "Gentoo") with
      | none => none
      | some (true, baseSystemVersion) =>
        some (true, ⟨str "Gentoo", str "gentoo", baseSystemVersion, lsb, osr⟩)
      | some (false, _) =>
        some (true, ⟨str "Gentoo", str "gentoo", str "unknown", lsb, osr⟩)
    | none => some (true, ⟨str "Gentoo", str "gentoo", str "unknown", lsb, osr⟩)
  else some (false, emptyDistro)

def IsOpenSuSE : Det := fun fs lsb osr =>
  if getRD osr (str "ID") = str "opensuse" then
    some (true, ⟨str "openSUSE", str "opensuse", getRD osr (str "VERSION_ID"), lsb, osr⟩)
  else
    match readFileFunc fs [str "/etc/SuSE-release"] with
    | some contents =>
      if hasPref (str "openSUSE") contents then
        some (true, ⟨str "openSUSE", str "opensuse",
          getRD (parseOSRelease contents) (str "VERSION"), lsb, osr⟩)
      else some (false, emptyDistro)
    | none => some (false, emptyDistro)

def IsPuppy : Det := fun fs lsb osr =>
  if getRD lsb (str "DISTRIB_ID") ≠ str "Puppy" then some (false, emptyDistro)
  else some (true, ⟨str "Puppy Linux", str "puppy", getRD osr (str "VERSION_ID"), lsb, osr⟩)

def IsMageia : Det := fun fs lsb osr =>
  if getRD osr (str "ID") = str "mageia" then
    some (true, ⟨str "Mageia", str "mageia", getRD osr (str "VERSION"), lsb, osr⟩)
  else some (false, emptyDistro)

def IsMint : Det := fun fs lsb osr =>
  if getRD lsb (str "DISTRIB_ID") ≠ str "LinuxMint" then some (false, emptyDistro)
  else some (true, ⟨str "Linux Mint", str "linuxmint", getRD lsb (str "DISTRIB_RELEASE"), lsb, osr⟩)

def IsNovellOES : Det := fun fs lsb osr =>
  match readFileFunc fs [str "/etc/novell-release"] with
  | some contents =>
    if hasPref (str "Novell Open Enterprise Server") contents then
      some (true, ⟨str "Novell Open Enterprise Server", str "oes",
        getRD (parseOSRelease contents) (str "VERSION"), lsb, osr⟩)
    else some (false, emptyDistro)
  | none => some (false, emptyDistro)

/-- Defined in the source but absent from the `DistroTests` list. -/
def IsNixOS : Det := fun fs lsb osr =>
  if getRD osr (str "ID") = str "nixos" then
    some (true, ⟨str "NixOS", str "nixos", getRD osr (str "VERSION_ID"), lsb, osr⟩)
  else some (false, emptyDistro)

def IsRancherOS : Det := fun fs lsb osr =>
  if getRD osr (str "ID") = str "rancheros" then
    some (true, ⟨str "RancherOS", str "rancheros", getRD osr (str "VERSION_ID"), lsb, osr⟩)
  else some (false, emptyDistro)

def IsRHEL : Det := fun fs lsb osr =>
  if getRD osr (str "ID") = str "rhel" ∧ getRD osr (str "VERSION_ID") ≠ [] then
    some (true, ⟨str "Red Hat Enterprise Linux", str "rhel", getRD osr (str "VERSION_ID"), lsb, osr⟩)
  else
    match IsOracleLinux fs lsb osr with
    | none => none
    | some (true, distro) => some (true, distro)
    | some (false, _) =>
      match readFileFunc fs [str "/etc/redhat-release", str "/etc/redhat-version"] with
      | some contents =>
        match parseRedhatReleaseContents contents (str "Red Hat Enterprise Linux") with
        | none => none
        | some (true, version) =>
          some (true, ⟨str "Red Hat Enterprise Linux", str "rhel", version, lsb, osr⟩)
        | some (false, _) => some (false, emptyDistro)
      | none => some (false, emptyDistro)

def IsSLES : Det := fun fs lsb osr =>
  if getRD osr (str "ID") = str "sles" then
    some (true, ⟨str "SUSE Linux", str "sles", getRD osr (str "VERSION_ID"), lsb, osr⟩)
  else
    match readFileFunc fs [str "/etc/SuSE-release", str "/etc/sles-release"] with
    | some contents =>
      if hasPref (str "SUSE Linux") contents then
        some (true, ⟨str "SUSE Linux", str "sles",
          getRD (parseOSRelease contents) (str "VERSION"), lsb, osr⟩)
      else some (false, emptyDistro)
    | none => some (false, emptyDistro)

def IsScientificLinux : Det := fun fs lsb osr =>
  match IsOracleLinux fs lsb osr with
  | none => none
  | some (true, distro) => some (true, distro)
  | some (false, _) =>
    match readFileFunc fs [str "/etc/sl-release", str "/etc/redhat-release"] with
    | some contents =>
      match parseRedhatReleaseContents contents (str "Scientific Linux") with
      | none => none
      | some (true, version) =>
        some (true, ⟨str "Scientific Linux", str "scientific", version, lsb, osr⟩)
      | some (false, _) => some (false, emptyDistro)
    | none => some (false, emptyDistro)

def IsPhoton : Det := fun fs lsb osr =>
  if getRD osr (str "ID") = str "photon" ∧ getRD osr (str "VERSION_ID") ≠ [] then
    some (true, ⟨str "VMware Photon", str "photon", getRD osr (str "VERSION_ID"), lsb, osr⟩)
  else
    match readFileFunc fs [str "/etc/photon-release"] with
    | some contents =>
      match parseRedhatReleaseContents contents (str "VMware Photon Linux") with
      | none => none
      | some (true, version) =>
        some (true, ⟨str "VMware Photon", str "photon", version, lsb, osr⟩)
      | some (false, _) => some (false, emptyDistro)
    | none => some (false, emptyDistro)

def IsSlackware : Det := fun fs lsb osr =>
  if getRD osr (str "ID") = str "slackware" ∧ getRD osr (str "VERSION_ID") ≠ [] then
    some (true, ⟨str "Slackware", str "slackware", getRD osr (str "VERSION_ID"), lsb, osr⟩)
  else
    match readFileFunc fs [str "/etc/slackware-version"] with
    | some contents =>
      if !hasPref (str "Slackware") contents then some (false, emptyDistro)
      else
        let t := trimSpaceGo contents
        let version :=
          if (t.takeWhile (· ≠ ' ')).length < t.length then t.dropWhile (· ≠ ' ') |>.drop 1
          else str "unknown"
        some (true, ⟨str "Slackware", str "slackware", version, lsb, osr⟩)
    | none => some (false, emptyDistro)

def IsSourceMage : Det := fun fs lsb osr =>
  match readFileFunc fs [str "/etc/sourcemage-release"] with
  | some contents =>
    let version :=
      ((splitLines contents).findSome? (fun line =>
        if line = [] || hasPref (str "#") line then none
        else smageCapture line)).getD (str "unknown")
    some (true, ⟨str "Source Mage GNU/Linux", str "sourcemage", version, lsb, osr⟩)
  | none => some (false, emptyDistro)

def IsUbuntu : Det := fun fs lsb osr =>
  if getRD lsb (str "DISTRIB_ID") ≠ str "Ubuntu" then some (false, emptyDistro)
  else some (true, ⟨str "Ubuntu", str "ubuntu", getRD lsb (str "DISTRIB_RELEASE"), lsb, osr⟩)

def IsYellowDog : Det := fun fs lsb osr =>
  match readFileFunc fs [str "/etc/yellowdog-release"] with
  | some contents =>
    match parseRedhatReleaseContents contents (str "Yellow Dog Linux") with
    | none => none
    | some (true, version) =>
      some (true, ⟨str "Yellow Dog Linux", str "yellow-dog", version, lsb, osr⟩)
    | some (false, _) => some (false, emptyDistro)
  | none => some (false, emptyDistro)

/-- The fixed, hand-ordered detector list (`DistroTests`). -/
def DistroTests : List Det :=
  [IsCentOS, IsRHEL, IsUbuntu, IsDebian, IsAmazonLinux, IsFedora, IsOpenSuSE,
   IsSLES, IsOracleLinux, IsPhoton, IsAlpine, IsArchLinux, IsGentoo, IsKali,
   IsScientificLinux, IsSlackware, IsMageia, IsClearLinux, IsMint, IsMXLinux,
   IsNovellOES, IsPuppy, IsRancherOS, IsAlt, IsCrux, IsSourceMage, IsAndroid,
   IsYellowDog, IsBusyBox]

/-- First whitespace segment in the sense of `strings.SplitN(s, " ", 2)[0]`
(split at the first space only). -/
def firstSpaceSeg (s : Str) : Str := s.takeWhile (· ≠ ' ')

/-- Go `strings.ToLower` (rune-wise lowering; length preserving). -/
def toLowerGo (s : Str) : Str := s.map Char.toLower

/-- The Fallback Heuristic (`BestGuess`). -/
def BestGuess (lsbProperties osReleaseProperties : RD) : LinuxDistro :=
  let id :=
    if getRD osReleaseProperties (str "ID") ≠ [] then getRD osReleaseProperties (str "ID")
    else if getRD lsbProperties (str "DISTRIB_ID") ≠ [] then
      toLowerGo (getRD lsbProperties (str "DISTRIB_ID"))
    else str "unknown"
  let name :=
    if getRD osReleaseProperties (str "NAME") ≠ [] then getRD osReleaseProperties (str "NAME")
    else if getRD osReleaseProperties (str "PRETTY_NAME") ≠ [] then
      firstSpaceSeg (getRD osReleaseProperties (str "PRETTY_NAME"))
    else if getRD lsbProperties (str "DISTRIB_ID") ≠ [] then
      getRD lsbProperties (str "DISTRIB_ID")
    else if getRD osReleaseProperties (str "ID") ≠ [] then
      getRD osReleaseProperties (str "ID")
    else str "Unknown"
  let version :=
    if getRD osReleaseProperties (str "VERSION_ID") ≠ [] then
      getRD osReleaseProperties (str "VERSION_ID")
    else if getRD lsbProperties (str "DISTRIB_RELEASE") ≠ [] then
      getRD lsbProperties (str "DISTRIB_RELEASE")
    else if getRD osReleaseProperties (str "VERSION") ≠ [] then
      firstSpaceSeg (getRD osReleaseProperties (str "VERSION"))
    else str "unknown"
  ⟨name, id, version, lsbProperties, osReleaseProperties⟩

/-- The detector scan loop of `discoverDistroFromProperties`: `none` when a
detector panics, `some none` when no detector matched, `some (some r)` for
the first positive match. -/
def runDetectors (fs : FS) (lsb osr : RD) : List Det → Option (Option LinuxDistro)
  | [] => some none
  | d :: rest =>
    match d fs lsb osr with
    | none => none
    | some (true, r) => some (some r)
    | some (false, _) => runDetectors fs lsb osr rest

/-- Instrumented scan: additionally returns the detectors consulted, in
order. -/
def runDetectorsTrace (fs : FS) (lsb osr : RD) :
    List Det → List Det × Option (Option LinuxDistro)
  | [] => ([], some none)
  | d :: rest =>
    match d fs lsb osr with
    | none => ([d], none)
    | some (true, r) => ([d], some (some r))
    | some (false, _) =>
      (d :: (runDetectorsTrace fs lsb osr rest).1,
       (runDetectorsTrace fs lsb osr rest).2)

/-- `discoverDistroFromProperties`: first positive match, else the Fallback
Heuristic; `none` models the propagated panic. -/
def discoverDistroFromProperties (fs : FS) (lsbProperties osReleaseProperties : RD) :
    Option LinuxDistro :=
  (runDetectors fs lsbProperties osReleaseProperties DistroTests).map
    (fun o => o.getD (BestGuess lsbProperties osReleaseProperties))

/-!
Definitions written from the specification's words (not from the source),
used to compare claimed behaviour against embedded behaviour.
-/

/-- Modelled from the spec (claim C5's wording): strip exactly one single
matching pair of surrounding double quotes — one layer only, an unmatched
quote preserved. -/
def stripOneQuotePair (s : Str) : Str :=
  if 2 ≤ s.length ∧ s.head? = some '"' ∧ s.getLast? = some '"' then
    (s.drop 1).dropLast
  else s

/-- First whitespace-delimited token of a string (empty tokens dropped),
as the wording of claim C7 reads. -/
def firstWsTok (s : Str) : Str :=
  (((s.splitOnP uniSpace).filter (fun t => !(t == []))).headD [])

/-- Modelled from the spec (claim C7's wording): the Fallback Heuristic's
Name as the first non-empty of os-release NAME, the first
whitespace-delimited token of os-release PRETTY_NAME, LSB DISTRIB_ID,
os-release ID, and the literal Unknown. -/
def claimC7Name (lsb osr : RD) : Str :=
  (([getRD osr (str "NAME"), firstWsTok (getRD osr (str "PRETTY_NAME")),
     getRD lsb (str "DISTRIB_ID"), getRD osr (str "ID"),
     str "Unknown"].find? (fun c => !(c == []))).getD [])

/-- The amended fallback-Name resolution (claim C7 corrected): NAME when
non-empty; otherwise, when PRETTY_NAME is non-empty, its prefix up to the
first space character (possibly empty); otherwise DISTRIB_ID; otherwise
ID; otherwise the literal Unknown. -/
def amendedC7Name (lsb osr : RD) : Str :=
  if getRD osr (str "NAME") ≠ [] then getRD osr (str "NAME")
  else if getRD osr (str "PRETTY_NAME") ≠ [] then
    firstSpaceSeg (getRD osr (str "PRETTY_NAME"))
  else if getRD lsb (str "DISTRIB_ID") ≠ [] then getRD lsb (str "DISTRIB_ID")
  else if getRD osr (str "ID") ≠ [] then getRD osr (str "ID")
  else str "Unknown"

/-- Claim C2's characterisation of the scan: the Result Record of the
first detector in the list whose match flag is true. -/
def firstMatch (fs : FS) (lsb osr : RD) (ds : List Det) : Option LinuxDistro :=
  (ds.find? (fun d => ((d fs lsb osr).getD (false, emptyDistro)).1)).map
    (fun d => ((d fs lsb osr).getD (false, emptyDistro)).2)

/-- The candidate-path lists of the eight reads whose contents flow into
`parseRedhatReleaseContents` (the one partial parser of the core). -/
def riskyReadLists : List (List Str) :=
  [[str "/etc/oracle-release"],
   [str "/etc/centos-release", str "/etc/redhat-release"],
   [str "/etc/redhat-release"],
   [str "/etc/redhat-release", str "/etc/redhat-version"],
   [str "/etc/sl-release", str "/etc/redhat-release"],
   [str "/etc/photon-release"],
   [str "/etc/gentoo-release"],
   [str "/etc/yellowdog-release"]]

/-- Concrete filesystem for the C1 witness: an Oracle Linux host whose
`/etc/redhat-release` impersonates Red Hat (the repository's own Oracle
Linux 7 test data). -/
def fsC1 : FS :=
  [(str "/etc/redhat-release", str "Red Hat Enterprise Linux Server release 7.9 (Maipo)\n"),
   (str "/etc/oracle-release", str "Oracle Linux Server release 7.9\n")]

/-- Concrete filesystem for the C3 counterexample: a marker file whose
contents do not match the release-line pattern. -/
def fsC3 : FS := [(str "/etc/centos-release", str "x")]

/-- Concrete filesystem for claim C4: `/bin/true` is exactly the BusyBox
banner followed by a newline terminator, with no release files at all. -/
def fsC4a : FS := [(str "/bin/true", str "BusyBox v1.32.0\n")]

/-- Concrete filesystem for claim C4: `/bin/true` never contains the
`BusyBox v` signature contiguously (a chunk boundary separates
`BusyBox ` from `v1.32.0`). -/
def fsC4b : FS := [(str "/bin/true", str "BusyBox XXXXXXv1.32.0zzz")]

/-- Concrete os-release map for the C6/C7 counterexamples: PRETTY_NAME
starts with a space, so its first space-delimited segment is empty. -/
def osrPretty : RD := [(str "PRETTY_NAME", str " x")]

/-- Concrete LSB map for the C7 counterexample. -/
def lsbFoo : RD := [(str "DISTRIB_ID", str "Foo")]

/-!
Helper lemmas about the detectors.
-/

/-- Matched-record discipline of one detector result: a positively matched
record carries a non-empty ID and Name and the two input maps verbatim. -/
def detOK (lsb osr : RD) (o : Option (Bool × LinuxDistro)) : Prop :=
  ∀ r, o = some (true, r) →
    r.ID ≠ [] ∧ r.Name ≠ [] ∧ r.LsbRelease = lsb ∧ r.OsRelease = osr

lemma mk_fields (n i v : Str) (lsb osr : RD) (hi : i ≠ []) (hn : n ≠ []) :
    (LinuxDistro.mk n i v lsb osr).ID ≠ [] ∧ (LinuxDistro.mk n i v lsb osr).Name ≠ [] ∧
    (LinuxDistro.mk n i v lsb osr).LsbRelease = lsb ∧
    (LinuxDistro.mk n i v lsb osr).OsRelease = osr :=
  ⟨hi, hn, rfl, rfl⟩

lemma detOK_oracle (fs : FS) (lsb osr : RD) : detOK lsb osr (IsOracleLinux fs lsb osr) := by
  intro r hr
  unfold IsOracleLinux at hr
  repeat' split at hr
  all_goals simp at hr
  all_goals subst hr
  all_goals exact mk_fields _ _ _ _ _ (by decide) (by decide)

lemma detOK_mx (fs : FS) (lsb osr : RD) : detOK lsb osr (IsMXLinux fs lsb osr) := by
  intro r hr
  unfold IsMXLinux at hr
  repeat' split at hr
  all_goals simp at hr
  all_goals subst hr
  all_goals exact mk_fields _ _ _ _ _ (by decide) (by decide)

lemma detOK_centos (fs : FS) (lsb osr : RD) : detOK lsb osr (IsCentOS fs lsb osr) := by
  intro r hr
  unfold IsCentOS at hr
  repeat' split at hr
  all_goals simp at hr
  all_goals subst hr
  all_goals first
    | exact mk_fields _ _ _ _ _ (by decide) (by decide)
    | exact detOK_oracle fs lsb osr _ (by assumption)

lemma detOK_rhel (fs : FS) (lsb osr : RD) : detOK lsb osr (IsRHEL fs lsb osr) := by
  intro r hr
  unfold IsRHEL at hr
  repeat' split at hr
  all_goals simp at hr
  all_goals subst hr
  all_goals first
    | exact mk_fields _ _ _ _ _ (by decide) (by decide)
    | exact detOK_oracle fs lsb osr _ (by assumption)

lemma detOK_fedora (fs : FS) (lsb osr : RD) : detOK lsb osr (IsFedora fs lsb osr) := by
  intro r hr
  unfold IsFedora at hr
  repeat' split at hr
  all_goals simp at hr
  all_goals subst hr
  all_goals first
    | exact mk_fields _ _ _ _ _ (by decide) (by decide)
    | exact detOK_oracle fs lsb osr _ (by assumption)

lemma detOK_scientific (fs : FS) (lsb osr : RD) : detOK lsb osr (IsScientificLinux fs lsb osr) := by
  intro r hr
  unfold IsScientificLinux at hr
  repeat' split at hr
  all_goals simp at hr
  all_goals subst hr
  all_goals first
    | exact mk_fields _ _ _ _ _ (by decide) (by decide)
    | exact detOK_oracle fs lsb osr _ (by assumption)

lemma detOK_debian (fs : FS) (lsb osr : RD) : detOK lsb osr (IsDebian fs lsb osr) := by
  intro r hr
  unfold IsDebian at hr
  repeat' split at hr
  all_goals simp at hr
  all_goals subst hr
  all_goals first
    | exact mk_fields _ _ _ _ _ (by decide) (by decide)
    | exact detOK_mx fs lsb osr _ (by assumption)

lemma detOK_ubuntu (fs : FS) (lsb osr : RD) : detOK lsb osr (IsUbuntu fs lsb osr) := by
  intro r hr
  unfold IsUbuntu at hr
  repeat' split at hr
  all_goals simp at hr
  all_goals subst hr
  all_goals exact mk_fields _ _ _ _ _ (by decide) (by decide)

lemma detOK_amazon (fs : FS) (lsb osr : RD) : detOK lsb osr (IsAmazonLinux fs lsb osr) := by
  intro r hr
  unfold IsAmazonLinux at hr
  repeat' split at hr
  all_goals simp at hr
  all_goals subst hr
  all_goals exact mk_fields _ _ _ _ _ (by decide) (by decide)

lemma detOK_opensuse (fs : FS) (lsb osr : RD) : detOK lsb osr (IsOpenSuSE fs lsb osr) := by
  intro r hr
  unfold IsOpenSuSE at hr
  repeat' split at hr
  all_goals simp at hr
  all_goals subst hr
  all_goals exact mk_fields _ _ _ _ _ (by decide) (by decide)

lemma detOK_sles (fs : FS) (lsb osr : RD) : detOK lsb osr (IsSLES fs lsb osr) := by
  intro r hr
  unfold IsSLES at hr
  repeat' split at hr
  all_goals simp at hr
  all_goals subst hr
  all_goals exact mk_fields _ _ _ _ _ (by decide) (by decide)

lemma detOK_photon (fs : FS) (lsb osr : RD) : detOK lsb osr (IsPhoton fs lsb osr) := by
  intro r hr
  unfold IsPhoton at hr
  repeat' split at hr
  all_goals simp at hr
  all_goals subst hr
  all_goals exact mk_fields _ _ _ _ _ (by decide) (by decide)

lemma detOK_alpine (fs : FS) (lsb osr : RD) : detOK lsb osr (IsAlpine fs lsb osr) := by
  intro r hr
  unfold IsAlpine at hr
  repeat' split at hr
  all_goals simp at hr
  all_goals subst hr
  all_goals exact mk_fields _ _ _ _ _ (by decide) (by decide)

lemma detOK_arch (fs : FS) (lsb osr : RD) : detOK lsb osr (IsArchLinux fs lsb osr) := by
  intro r hr
  unfold IsArchLinux at hr
  repeat' split at hr
  all_goals simp at hr
  all_goals subst hr
  all_goals exact mk_fields _ _ _ _ _ (by decide) (by decide)

lemma detOK_gentoo (fs : FS) (lsb osr : RD) : detOK lsb osr (IsGentoo fs lsb osr) := by
  intro r hr
  unfold IsGentoo at hr
  repeat' split at hr
  all_goals simp at hr
  all_goals subst hr
  all_goals exact mk_fields _ _ _ _ _ (by decide) (by decide)

lemma detOK_kali (fs : FS) (lsb osr : RD) : detOK lsb osr (IsKali fs lsb osr) := by
  intro r hr
  unfold IsKali at hr
  repeat' split at hr
  all_goals simp at hr
  all_goals subst hr
  all_goals exact mk_fields _ _ _ _ _ (by decide) (by decide)

lemma detOK_slackware (fs : FS) (lsb osr : RD) : detOK lsb osr (IsSlackware fs lsb osr) := by
  intro r hr
  unfold IsSlackware at hr
  repeat' split at hr
  all_goals simp at hr
  all_goals subst hr
  all_goals exact mk_fields _ _ _ _ _ (by decide) (by decide)

lemma detOK_mageia (fs : FS) (lsb osr : RD) : detOK lsb osr (IsMageia fs lsb osr) := by
  intro r hr
  unfold IsMageia at hr
  repeat' split at hr
  all_goals simp at hr
  all_goals subst hr
  all_goals exact mk_fields _ _ _ _ _ (by decide) (by decide)

lemma detOK_clear (fs : FS) (lsb osr : RD) : detOK lsb osr (IsClearLinux fs lsb osr) := by
  intro r hr
  unfold IsClearLinux at hr
  repeat' split at hr
  all_goals simp at hr
  all_goals subst hr
  all_goals exact mk_fields _ _ _ _ _ (by decide) (by decide)

lemma detOK_mint (fs : FS) (lsb osr : RD) : detOK lsb osr (IsMint fs lsb osr) := by
  intro r hr
  unfold IsMint at hr
  repeat' split at hr
  all_goals simp at hr
  all_goals subst hr
  all_goals exact mk_fields _ _ _ _ _ (by decide) (by decide)

lemma detOK_novell (fs : FS) (lsb osr : RD) : detOK lsb osr (IsNovellOES fs lsb osr) := by
  intro r hr
  unfold IsNovellOES at hr
  repeat' split at hr
  all_goals simp at hr
  all_goals subst hr
  all_goals exact mk_fields _ _ _ _ _ (by decide) (by decide)

lemma detOK_puppy (fs : FS) (lsb osr : RD) : detOK lsb osr (IsPuppy fs lsb osr) := by
  intro r hr
  unfold IsPuppy at hr
  repeat' split at hr
  all_goals simp at hr
  all_goals subst hr
  all_goals exact mk_fields _ _ _ _ _ (by decide) (by decide)

lemma detOK_rancher (fs : FS) (lsb osr : RD) : detOK lsb osr (IsRancherOS fs lsb osr) := by
  intro r hr
  unfold IsRancherOS at hr
  repeat' split at hr
  all_goals simp at hr
  all_goals subst hr
  all_goals exact mk_fields _ _ _ _ _ (by decide) (by decide)

lemma detOK_alt (fs : FS) (lsb osr : RD) : detOK lsb osr (IsAlt fs lsb osr) := by
  intro r hr
  unfold IsAlt at hr
  repeat' split at hr
  all_goals simp at hr
  all_goals subst hr
  all_goals exact mk_fields _ _ _ _ _ (by decide) (by decide)

lemma detOK_crux (fs : FS) (lsb osr : RD) : detOK lsb osr (IsCrux fs lsb osr) := by
  intro r hr
  unfold IsCrux at hr
  repeat' split at hr
  all_goals simp at hr
  all_goals subst hr
  all_goals exact mk_fields _ _ _ _ _ (by decide) (by decide)

lemma detOK_smage (fs : FS) (lsb osr : RD) : detOK lsb osr (IsSourceMage fs lsb osr) := by
  intro r hr
  unfold IsSourceMage at hr
  repeat' split at hr
  all_goals simp at hr
  all_goals subst hr
  all_goals exact mk_fields _ _ _ _ _ (by decide) (by decide)

lemma detOK_android (fs : FS) (lsb osr : RD) : detOK lsb osr (IsAndroid fs lsb osr) := by
  intro r hr
  unfold IsAndroid at hr
  repeat' split at hr
  all_goals simp at hr
  all_goals subst hr
  all_goals exact mk_fields _ _ _ _ _ (by decide) (by decide)

lemma detOK_yellowdog (fs : FS) (lsb osr : RD) : detOK lsb osr (IsYellowDog fs lsb osr) := by
  intro r hr
  unfold IsYellowDog at hr
  repeat' split at hr
  all_goals simp at hr
  all_goals subst hr
  all_goals exact mk_fields _ _ _ _ _ (by decide) (by decide)

lemma detOK_busybox (fs : FS) (lsb osr : RD) : detOK lsb osr (IsBusyBox fs lsb osr) := by
  intro r hr
  unfold IsBusyBox at hr
  repeat' split at hr
  all_goals simp at hr
  all_goals subst hr
  all_goals exact mk_fields _ _ _ _ _ (by decide) (by decide)

/-- Every detector of the scan list obeys the matched-record discipline. -/
lemma detOK_all (fs : FS) (lsb osr : RD) :
    ∀ d ∈ DistroTests, detOK lsb osr (d fs lsb osr) := by
  intro d hd
  simp only [DistroTests, List.mem_cons, List.not_mem_nil, or_false] at hd
  rcases hd with rfl|rfl|rfl|rfl|rfl|rfl|rfl|rfl|rfl|rfl|rfl|rfl|rfl|rfl|rfl|rfl|rfl|
    rfl|rfl|rfl|rfl|rfl|rfl|rfl|rfl|rfl|rfl|rfl|rfl
  · exact detOK_centos fs lsb osr
  · exact detOK_rhel fs lsb osr
  · exact detOK_ubuntu fs lsb osr
  · exact detOK_debian fs lsb osr
  · exact detOK_amazon fs lsb osr
  · exact detOK_fedora fs lsb osr
  · exact detOK_opensuse fs lsb osr
  · exact detOK_sles fs lsb osr
  · exact detOK_oracle fs lsb osr
  · exact detOK_photon fs lsb osr
  · exact detOK_alpine fs lsb osr
  · exact detOK_arch fs lsb osr
  · exact detOK_gentoo fs lsb osr
  · exact detOK_kali fs lsb osr
  · exact detOK_scientific fs lsb osr
  · exact detOK_slackware fs lsb osr
  · exact detOK_mageia fs lsb osr
  · exact detOK_clear fs lsb osr
  · exact detOK_mint fs lsb osr
  · exact detOK_mx fs lsb osr
  · exact detOK_novell fs lsb osr
  · exact detOK_puppy fs lsb osr
  · exact detOK_rancher fs lsb osr
  · exact detOK_alt fs lsb osr
  · exact detOK_crux fs lsb osr
  · exact detOK_smage fs lsb osr
  · exact detOK_android fs lsb osr
  · exact detOK_yellowdog fs lsb osr
  · exact detOK_busybox fs lsb osr

/-- The release-line parser only panics when the regex does not match. -/
lemma parse_isSome (c e : Str) (h : (releaseSplit c).isSome) :
    (parseRedhatReleaseContents c e).isSome := by
  unfold parseRedhatReleaseContents
  cases hs : releaseSplit c with
  | none => rw [hs] at h; cases h
  | some v =>
    obtain ⟨m0, g1, g2, g3, g4⟩ := v
    split
    · rename_i heq; simp at heq
    · split <;> rfl

lemma isSome_mx (fs : FS) (lsb osr : RD) : (IsMXLinux fs lsb osr).isSome := by
  unfold IsMXLinux
  repeat' split
  all_goals rfl

lemma isSome_ubuntu (fs : FS) (lsb osr : RD) : (IsUbuntu fs lsb osr).isSome := by
  unfold IsUbuntu
  repeat' split
  all_goals rfl

lemma isSome_amazon (fs : FS) (lsb osr : RD) : (IsAmazonLinux fs lsb osr).isSome := by
  unfold IsAmazonLinux
  repeat' split
  all_goals rfl

lemma isSome_opensuse (fs : FS) (lsb osr : RD) : (IsOpenSuSE fs lsb osr).isSome := by
  unfold IsOpenSuSE
  repeat' split
  all_goals rfl

lemma isSome_sles (fs : FS) (lsb osr : RD) : (IsSLES fs lsb osr).isSome := by
  unfold IsSLES
  repeat' split
  all_goals rfl

lemma isSome_alpine (fs : FS) (lsb osr : RD) : (IsAlpine fs lsb osr).isSome := by
  unfold IsAlpine
  repeat' split
  all_goals rfl

lemma isSome_arch (fs : FS) (lsb osr : RD) : (IsArchLinux fs lsb osr).isSome := by
  unfold IsArchLinux
  repeat' split
  all_goals rfl

lemma isSome_kali (fs : FS) (lsb osr : RD) : (IsKali fs lsb osr).isSome := by
  unfold IsKali
  repeat' split
  all_goals rfl

lemma isSome_slackware (fs : FS) (lsb osr : RD) : (IsSlackware fs lsb osr).isSome := by
  unfold IsSlackware
  repeat' split
  all_goals rfl

lemma isSome_mageia (fs : FS) (lsb osr : RD) : (IsMageia fs lsb osr).isSome := by
  unfold IsMageia
  repeat' split
  all_goals rfl

lemma isSome_clear (fs : FS) (lsb osr : RD) : (IsClearLinux fs lsb osr).isSome := by
  unfold IsClearLinux
  repeat' split
  all_goals rfl

lemma isSome_mint (fs : FS) (lsb osr : RD) : (IsMint fs lsb osr).isSome := by
  unfold IsMint
  repeat' split
  all_goals rfl

lemma isSome_novell (fs : FS) (lsb osr : RD) : (IsNovellOES fs lsb osr).isSome := by
  unfold IsNovellOES
  repeat' split
  all_goals rfl

lemma isSome_puppy (fs : FS) (lsb osr : RD) : (IsPuppy fs lsb osr).isSome := by
  unfold IsPuppy
  repeat' split
  all_goals rfl

lemma isSome_rancher (fs : FS) (lsb osr : RD) : (IsRancherOS fs lsb osr).isSome := by
  unfold IsRancherOS
  repeat' split
  all_goals rfl

lemma isSome_alt (fs : FS) (lsb osr : RD) : (IsAlt fs lsb osr).isSome := by
  unfold IsAlt
  repeat' split
  all_goals rfl

lemma isSome_crux (fs : FS) (lsb osr : RD) : (IsCrux fs lsb osr).isSome := by
  unfold IsCrux
  repeat' split
  all_goals rfl

lemma isSome_smage (fs : FS) (lsb osr : RD) : (IsSourceMage fs lsb osr).isSome := by
  unfold IsSourceMage
  repeat' split
  all_goals rfl

lemma isSome_android (fs : FS) (lsb osr : RD) : (IsAndroid fs lsb osr).isSome := by
  unfold IsAndroid
  repeat' split
  all_goals rfl

lemma isSome_busybox (fs : FS) (lsb osr : RD) : (IsBusyBox fs lsb osr).isSome := by
  unfold IsBusyBox
  repeat' split
  all_goals rfl

lemma isSome_debian (fs : FS) (lsb osr : RD) : (IsDebian fs lsb osr).isSome := by
  have h := isSome_mx fs lsb osr
  unfold IsDebian
  repeat' split
  all_goals first
    | rfl
    | (rename_i heq; rw [heq] at h; cases h)

lemma isSome_oracle (fs : FS) (lsb osr : RD)
    (hp : ∀ c, readFileFunc fs [str "/etc/oracle-release"] = some c →
      (releaseSplit c).isSome) :
    (IsOracleLinux fs lsb osr).isSome := by
  unfold IsOracleLinux
  split
  · rfl
  · cases hf : readFileFunc fs [str "/etc/oracle-release"] with
    | none => rfl
    | some contents =>
      have hps := parse_isSome contents (str "Oracle Linux") (hp contents hf)
      cases hpp : parseRedhatReleaseContents contents (str "Oracle Linux") with
      | none => rw [hpp] at hps; cases hps
      | some p => obtain ⟨b, v⟩ := p; cases b <;> simp [hpp]

lemma isSome_centos (fs : FS) (lsb osr : RD)
    (ho : (IsOracleLinux fs lsb osr).isSome)
    (hp : ∀ c, readFileFunc fs [str "/etc/centos-release", str "/etc/redhat-release"] = some c →
      (releaseSplit c).isSome) :
    (IsCentOS fs lsb osr).isSome := by
  unfold IsCentOS
  cases hOr : IsOracleLinux fs lsb osr with
  | none => rw [hOr] at ho; cases ho
  | some p =>
    obtain ⟨b, d⟩ := p
    cases b
    · cases hf : readFileFunc fs [str "/etc/centos-release", str "/etc/redhat-release"] with
      | none => simp [hf]
      | some contents =>
        have hps := parse_isSome contents (str "CentOS") (hp contents hf)
        cases hpp : parseRedhatReleaseContents contents (str "CentOS") with
        | none => rw [hpp] at hps; cases hps
        | some q => obtain ⟨b2, v⟩ := q; cases b2 <;> simp [hf, hpp]
    · simp

lemma isSome_fedora (fs : FS) (lsb osr : RD)
    (ho : (IsOracleLinux fs lsb osr).isSome)
    (hp : ∀ c, readFileFunc fs [str "/etc/redhat-release"] = some c →
      (releaseSplit c).isSome) :
    (IsFedora fs lsb osr).isSome := by
  unfold IsFedora
  split
  · rfl
  · cases hOr : IsOracleLinux fs lsb osr with
    | none => rw [hOr] at ho; cases ho
    | some p =>
      obtain ⟨b, d⟩ := p
      cases b
      · cases hf : readFileFunc fs [str "/etc/redhat-release"] with
        | none => simp [hf]
        | some contents =>
          have hps := parse_isSome contents (str "Fedora") (hp contents hf)
          cases hpp : parseRedhatReleaseContents contents (str "Fedora") with
          | none => rw [hpp] at hps; cases hps
          | some q => obtain ⟨b2, v⟩ := q; cases b2 <;> simp [hf, hpp]
      · simp

lemma isSome_rhel (fs : FS) (lsb osr : RD)
    (ho : (IsOracleLinux fs lsb osr).isSome)
    (hp : ∀ c, readFileFunc fs [str "/etc/redhat-release", str "/etc/redhat-version"] = some c →
      (releaseSplit c).isSome) :
    (IsRHEL fs lsb osr).isSome := by
  unfold IsRHEL
  split
  · rfl
  · cases hOr : IsOracleLinux fs lsb osr with
    | none => rw [hOr] at ho; cases ho
    | some p =>
      obtain ⟨b, d⟩ := p
      cases b
      · cases hf : readFileFunc fs [str "/etc/redhat-release", str "/etc/redhat-version"] with
        | none => simp [hf]
        | some contents =>
          have hps := parse_isSome contents (str "Red Hat Enterprise Linux") (hp contents hf)
          cases hpp : parseRedhatReleaseContents contents (str "Red Hat Enterprise Linux") with
          | none => rw [hpp] at hps; cases hps
          | some q => obtain ⟨b2, v⟩ := q; cases b2 <;> simp [hf, hpp]
      · simp

lemma isSome_scientific (fs : FS) (lsb osr : RD)
    (ho : (IsOracleLinux fs lsb osr).isSome)
    (hp : ∀ c, readFileFunc fs [str "/etc/sl-release", str "/etc/redhat-release"] = some c →
      (releaseSplit c).isSome) :
    (IsScientificLinux fs lsb osr).isSome := by
  unfold IsScientificLinux
  cases hOr : IsOracleLinux fs lsb osr with
  | none => rw [hOr] at ho; cases ho
  | some p =>
    obtain ⟨b, d⟩ := p
    cases b
    · cases hf : readFileFunc fs [str "/etc/sl-release", str "/etc/redhat-release"] with
      | none => simp [hf]
      | some contents =>
        have hps := parse_isSome contents (str "Scientific Linux") (hp contents hf)
        cases hpp : parseRedhatReleaseContents contents (str "Scientific Linux") with
        | none => rw [hpp] at hps; cases hps
        | some q => obtain ⟨b2, v⟩ := q; cases b2 <;> simp [hf, hpp]
    · simp

lemma isSome_photon (fs : FS) (lsb osr : RD)
    (hp : ∀ c, readFileFunc fs [str "/etc/photon-release"] = some c →
      (releaseSplit c).isSome) :
    (IsPhoton fs lsb osr).isSome := by
  unfold IsPhoton
  split
  · rfl
  · cases hf : readFileFunc fs [str "/etc/photon-release"] with
    | none => rfl
    | some contents =>
      have hps := parse_isSome contents (str "VMware Photon Linux") (hp contents hf)
      cases hpp : parseRedhatReleaseContents contents (str "VMware Photon Linux") with
      | none => rw [hpp] at hps; cases hps
      | some q => obtain ⟨b2, v⟩ := q; cases b2 <;> simp [hpp]

lemma isSome_gentoo (fs : FS) (lsb osr : RD)
    (hp : ∀ c, readFileFunc fs [str "/etc/gentoo-release"] = some c →
      (releaseSplit c).isSome) :
    (IsGentoo fs lsb osr).isSome := by
  unfold IsGentoo
  split
  · cases hf : readFileFunc fs [str "/etc/gentoo-release"] with
    | none => rfl
    | some contents =>
      have hps := parse_isSome contents (str "Gentoo") (hp contents hf)
      cases hpp : parseRedhatReleaseContents contents (str "Gentoo") with
      | none => rw [hpp] at hps; cases hps
      | some q => obtain ⟨b2, v⟩ := q; cases b2 <;> simp [hpp]
  · rfl

lemma isSome_yellowdog (fs : FS) (lsb osr : RD)
    (hp : ∀ c, readFileFunc fs [str "/etc/yellowdog-release"] = some c →
      (releaseSplit c).isSome) :
    (IsYellowDog fs lsb osr).isSome := by
  unfold IsYellowDog
  cases hf : readFileFunc fs [str "/etc/yellowdog-release"] with
  | none => rfl
  | some contents =>
    have hps := parse_isSome contents (str "Yellow Dog Linux") (hp contents hf)
    cases hpp : parseRedhatReleaseContents contents (str "Yellow Dog Linux") with
    | none => rw [hpp] at hps; cases hps
    | some q => obtain ⟨b2, v⟩ := q; cases b2 <;> simp [hpp]

/-- Under the marker-parse hypothesis every detector of the list returns
normally. -/
lemma detsSome (fs : FS) (lsb osr : RD)
    (h : ∀ ps ∈ riskyReadLists, ∀ c, readFileFunc fs ps = some c →
      (releaseSplit c).isSome) :
    ∀ d ∈ DistroTests, (d fs lsb osr).isSome := by
  have hOracle := isSome_oracle fs lsb osr (h _ (by decide))
  intro d hd
  simp only [DistroTests, List.mem_cons, List.not_mem_nil, or_false] at hd
  rcases hd with rfl|rfl|rfl|rfl|rfl|rfl|rfl|rfl|rfl|rfl|rfl|rfl|rfl|rfl|rfl|rfl|rfl|
    rfl|rfl|rfl|rfl|rfl|rfl|rfl|rfl|rfl|rfl|rfl|rfl
  · exact isSome_centos fs lsb osr hOracle (h _ (by decide))
  · exact isSome_rhel fs lsb osr hOracle (h _ (by decide))
  · exact isSome_ubuntu fs lsb osr
  · exact isSome_debian fs lsb osr
  · exact isSome_amazon fs lsb osr
  · exact isSome_fedora fs lsb osr hOracle (h _ (by decide))
  · exact isSome_opensuse fs lsb osr
  · exact isSome_sles fs lsb osr
  · exact hOracle
  · exact isSome_photon fs lsb osr (h _ (by decide))
  · exact isSome_alpine fs lsb osr
  · exact isSome_arch fs lsb osr
  · exact isSome_gentoo fs lsb osr (h _ (by decide))
  · exact isSome_kali fs lsb osr
  · exact isSome_scientific fs lsb osr hOracle (h _ (by decide))
  · exact isSome_slackware fs lsb osr
  · exact isSome_mageia fs lsb osr
  · exact isSome_clear fs lsb osr
  · exact isSome_mint fs lsb osr
  · exact isSome_mx fs lsb osr
  · exact isSome_novell fs lsb osr
  · exact isSome_puppy fs lsb osr
  · exact isSome_rancher fs lsb osr
  · exact isSome_alt fs lsb osr
  · exact isSome_crux fs lsb osr
  · exact isSome_smage fs lsb osr
  · exact isSome_android fs lsb osr
  · exact isSome_yellowdog fs lsb osr (h _ (by decide))
  · exact isSome_busybox fs lsb osr

/-- In an empty filesystem no read resolves. -/
lemma readFileFunc_nil (ps : List Str) : readFileFunc [] ps = none := by
  induction ps with
  | nil => rfl
  | cons p rest ih => simp [readFileFunc, List.findSome?] at ih ⊢

/-- The scan returns the first positive match (claim C2's `firstMatch`)
and consults exactly the prefix of the list up to and including that
match, when no detector of the list panics. -/
lemma runDetectors_char (fs : FS) (lsb osr : RD) :
    ∀ ds : List Det, (∀ d ∈ ds, (d fs lsb osr).isSome) →
      runDetectors fs lsb osr ds = some (firstMatch fs lsb osr ds) ∧
      (runDetectorsTrace fs lsb osr ds).1 =
        ds.take (ds.findIdx (fun d => ((d fs lsb osr).getD (false, emptyDistro)).1) + 1) := by
  intro ds
  induction ds with
  | nil => intro h; exact ⟨rfl, rfl⟩
  | cons d rest ih =>
    intro h
    obtain ⟨p, hp⟩ := Option.isSome_iff_exists.mp (h d (List.mem_cons_self d rest))
    obtain ⟨b, r⟩ := p
    have hrest := ih (fun d' hd' => h d' (List.mem_cons_of_mem _ hd'))
    cases b
    · constructor
      · simpa [runDetectors, hp, firstMatch, List.find?, List.findIdx_cons] using hrest.1
      · simpa [runDetectorsTrace, hp, List.findIdx_cons] using hrest.2
    · constructor
      · simp [runDetectors, hp, firstMatch, List.find?, List.findIdx_cons]
      · simp [runDetectorsTrace, hp, List.findIdx_cons]

/-- When `/etc/oracle-release` resolves and its contents parse as Oracle
Linux release text, the Oracle detector matches with the Oracle record. -/
lemma oracle_matches (fs : FS) (lsb osr : RD)
    (hora : ∃ oc ov, readFileFunc fs [str "/etc/oracle-release"] = some oc ∧
      parseRedhatReleaseContents oc (str "Oracle Linux") = some (true, ov)) :
    ∃ r, IsOracleLinux fs lsb osr = some (true, r) ∧
      r.ID = str "ol" ∧ r.Name = str "Oracle Linux" := by
  obtain ⟨oc, ov, hread, hparse⟩ := hora
  unfold IsOracleLinux
  split
  · exact ⟨_, rfl, rfl, rfl⟩
  · simp only [hread, hparse]
    exact ⟨_, rfl, rfl, rfl⟩

/-- A positive scan outcome comes from a positively matching detector of
the list. -/
lemma runDetectors_some (fs : FS) (lsb osr : RD) :
    ∀ (ds : List Det) (r : LinuxDistro), runDetectors fs lsb osr ds = some (some r) →
      ∃ d ∈ ds, d fs lsb osr = some (true, r) := by
  intro ds
  induction ds with
  | nil => intro r h; simp [runDetectors] at h
  | cons d rest ih =>
    intro r h
    unfold runDetectors at h
    cases hd : d fs lsb osr with
    | none => rw [hd] at h; cases h
    | some p =>
      obtain ⟨b, r'⟩ := p
      rw [hd] at h
      cases b
      · obtain ⟨d', hd', hmatch⟩ := ih r h
        exact ⟨d', List.mem_cons_of_mem _ hd', hmatch⟩
      · simp at h
        subst h
        exact ⟨d, List.mem_cons_self d rest, hd⟩

/-- Every record the classifier returns is either a detector's positive
match or the Fallback Heuristic's record. -/
lemma discover_cases (fs : FS) (lsb osr : RD) (r : LinuxDistro)
    (h : discoverDistroFromProperties fs lsb osr = some r) :
    (∃ d ∈ DistroTests, d fs lsb osr = some (true, r)) ∨ r = BestGuess lsb osr := by
  unfold discoverDistroFromProperties at h
  cases hr : runDetectors fs lsb osr DistroTests with
  | none => rw [hr] at h; cases h
  | some o =>
    rw [hr] at h
    cases o with
    | none =>
      right
      simp [Option.getD] at h
      exact h.symm
    | some r' =>
      left
      simp [Option.getD] at h
      subst h
      exact runDetectors_some fs lsb osr DistroTests r' hr

/-- A non-empty string whose head is not a space has a non-empty first
space-delimited segment. -/
lemma firstSpaceSeg_ne (s : Str) (hs : s ≠ []) (hh : s.head? ≠ some ' ') :
    firstSpaceSeg s ≠ [] := by
  cases s with
  | nil => simp at hs
  | cons c t =>
    have hc : c ≠ ' ' := by intro e; exact hh (by simp [e])
    simp [firstSpaceSeg, List.takeWhile, hc]

/-- The Fallback Heuristic's ID is never empty. -/
lemma bestGuess_id_ne (lsb osr : RD) : (BestGuess lsb osr).ID ≠ [] := by
  simp only [BestGuess]
  split
  · assumption
  · split
    · rename_i hlsb
      intro hc
      exact hlsb (List.map_eq_nil_iff.mp hc)
    · decide

/-- The Fallback Heuristic's Name is non-empty unless the PRETTY_NAME
branch is taken with a PRETTY_NAME that starts with a space. -/
lemma bestGuess_name_ne (lsb osr : RD)
    (hn : ¬(getRD osr (str "NAME") = [] ∧
      (getRD osr (str "PRETTY_NAME")).head? = some ' ')) :
    (BestGuess lsb osr).Name ≠ [] := by
  simp only [BestGuess]
  split
  · assumption
  · split
    · rename_i hname hpretty
      refine firstSpaceSeg_ne _ hpretty (fun hh => hn ⟨?_, hh⟩)
      by_contra hc
      exact hname hc
    · split
      · assumption
      · split
        · assumption
        · decide

/-- C1: when the os-release map does not itself identify a distribution
(its ID is neither `fedora` nor `rhel`-with-version), `/etc/redhat-release`
resolves to Red-Hat-style release text and `/etc/oracle-release` resolves
to text whose leading match starts with `Oracle Linux`, the classifier
returns the record with ID `ol` and Name `Oracle Linux`; moreover each of
the CentOS, RHEL, Fedora and Scientific Linux detectors — whichever is
consulted first — returns that positive Oracle match itself. -/
theorem C1_oracle_wins (fs : FS) (lsb osr : RD)
    (hfed : getRD osr (str "ID") ≠ str "fedora")
    (hrhel : ¬(getRD osr (str "ID") = str "rhel" ∧ getRD osr (str "VERSION_ID") ≠ []))
    (hred : ∃ rc rv, readFileFunc fs [str "/etc/redhat-release"] = some rc ∧
      parseRedhatReleaseContents rc (str "Red Hat") = some (true, rv))
    (hora : ∃ oc ov, readFileFunc fs [str "/etc/oracle-release"] = some oc ∧
      parseRedhatReleaseContents oc (str "Oracle Linux") = some (true, ov)) :
    (∃ r, discoverDistroFromProperties fs lsb osr = some r ∧
      r.ID = str "ol" ∧ r.Name = str "Oracle Linux") ∧
    (∀ d ∈ ([IsCentOS, IsRHEL, IsFedora, IsScientificLinux] : List Det),
      ∃ r, d fs lsb osr = some (true, r) ∧
        r.ID = str "ol" ∧ r.Name = str "Oracle Linux") := by
  obtain ⟨ro, hro, hroID, hroName⟩ := oracle_matches fs lsb osr hora
  have hcentos : IsCentOS fs lsb osr = some (true, ro) := by
    unfold IsCentOS; rw [hro]
  have hrhelD : IsRHEL fs lsb osr = some (true, ro) := by
    unfold IsRHEL; rw [if_neg hrhel, hro]
  have hfedD : IsFedora fs lsb osr = some (true, ro) := by
    unfold IsFedora; rw [if_neg hfed, hro]
  have hsciD : IsScientificLinux fs lsb osr = some (true, ro) := by
    unfold IsScientificLinux; rw [hro]
  constructor
  · refine ⟨ro, ?_, hroID, hroName⟩
    have hrun : runDetectors fs lsb osr DistroTests = some (some ro) := by
      unfold DistroTests runDetectors
      rw [hcentos]
    simp [discoverDistroFromProperties, hrun]
  · intro d hd
    simp only [List.mem_cons, List.not_mem_nil, or_false] at hd
    rcases hd with rfl | rfl | rfl | rfl
    · exact ⟨ro, hcentos, hroID, hroName⟩
    · exact ⟨ro, hrhelD, hroID, hroName⟩
    · exact ⟨ro, hfedD, hroID, hroName⟩
    · exact ⟨ro, hsciD, hroID, hroName⟩

/-- Witness for C1 at the repository's own Oracle Linux 7 test data. -/
theorem C1_oracle_wins_witness :
    (∃ r, discoverDistroFromProperties fsC1 [] [] = some r ∧
      r.ID = str "ol" ∧ r.Name = str "Oracle Linux") ∧
    (∀ d ∈ ([IsCentOS, IsRHEL, IsFedora, IsScientificLinux] : List Det),
      ∃ r, d fsC1 [] [] = some (true, r) ∧
        r.ID = str "ol" ∧ r.Name = str "Oracle Linux") :=
  C1_oracle_wins fsC1 [] [] (by decide) (by decide)
    ⟨str "Red Hat Enterprise Linux Server release 7.9 (Maipo)\n", str "7.9", rfl, rfl⟩
    ⟨str "Oracle Linux Server release 7.9\n", str "7.9", rfl, rfl⟩

/-- C2: the classifier's record is the first positive detector match of the
fixed hand-ordered list (CentOS first, BusyBox last), defaulting to the
Fallback Heuristic's record when none matches, and the consulted detectors
are exactly the prefix of the list up to and including the first match
(each consulted at most once, none after the first match). -/
theorem C2_first_match_scan (fs : FS) (lsb osr : RD)
    (h : ∀ d ∈ DistroTests, (d fs lsb osr).isSome) :
    DistroTests.head? = some IsCentOS ∧
    DistroTests.getLast? = some IsBusyBox ∧
    discoverDistroFromProperties fs lsb osr =
      some ((firstMatch fs lsb osr DistroTests).getD (BestGuess lsb osr)) ∧
    (runDetectorsTrace fs lsb osr DistroTests).1 =
      DistroTests.take
        (DistroTests.findIdx (fun d => ((d fs lsb osr).getD (false, emptyDistro)).1) + 1) := by
  have hc := runDetectors_char fs lsb osr DistroTests h
  refine ⟨rfl, rfl, ?_, hc.2⟩
  unfold discoverDistroFromProperties
  rw [hc.1]
  rfl

/-- Witness for C2 at empty property maps and an empty filesystem. -/
theorem C2_first_match_scan_witness :
    DistroTests.head? = some IsCentOS ∧
    DistroTests.getLast? = some IsBusyBox ∧
    discoverDistroFromProperties [] [] [] =
      some ((firstMatch [] [] [] DistroTests).getD (BestGuess [] [])) ∧
    (runDetectorsTrace [] [] [] DistroTests).1 =
      DistroTests.take
        (DistroTests.findIdx (fun d => ((d [] [] []).getD (false, emptyDistro)).1) + 1) :=
  C2_first_match_scan [] [] [] (List.all_eq_true.mp (by rfl))

/-- C3 counterexample: with `/etc/centos-release` containing the malformed
text `x` (which the release-line regex does not match), classification
panics — `parseRedhatReleaseContents` indexes the nil `FindStringSubmatch`
result — instead of treating the malformed marker file as a non-match. -/
theorem C3_no_fault_cex : discoverDistroFromProperties fsC3 [] [] = none := rfl

/-- C3 amended: classification never faults provided every marker file
read for the Release-Line Parser has contents the release-line regex
matches; under that hypothesis the classifier always returns a usable
record (file absence is always just a non-match). -/
theorem C3_no_fault_amended (fs : FS) (lsb osr : RD)
    (h : ∀ ps ∈ riskyReadLists, ∀ c, readFileFunc fs ps = some c →
      (releaseSplit c).isSome) :
    (discoverDistroFromProperties fs lsb osr).isSome := by
  have hc := runDetectors_char fs lsb osr DistroTests (detsSome fs lsb osr h)
  unfold discoverDistroFromProperties
  rw [hc.1]
  rfl

/-- Witness for the amended C3 at an empty filesystem, where no marker
file resolves at all. -/
theorem C3_no_fault_amended_witness : (discoverDistroFromProperties [] [] []).isSome :=
  C3_no_fault_amended [] [] []
    (fun ps hps c hc => by rw [readFileFunc_nil] at hc; cases hc)

/-- C4 (code bug): with `/bin/true` equal to `BusyBox v1.32.0` followed by
a newline, classification reports Version `v1.320` — the scanner skips the
last byte of every 14-byte read chunk — not `v1.32.0` as specified; and a
file that never contains the contiguous signature `BusyBox v` can still
match (the partial signature state survives the mismatch `break` across a
chunk boundary), here even yielding `v1.32.0`. -/
theorem C4_busybox_code_bug :
    discoverDistroFromProperties fsC4a [] [] =
      some ⟨str "BusyBox", str "busybox", str "v1.320", [], []⟩ ∧
    str "v1.320" ≠ str "v1.32.0" ∧
    hasSub (str "BusyBox v") (str "BusyBox XXXXXXv1.32.0zzz") = false ∧
    IsBusyBox fsC4b [] [] =
      some (true, ⟨str "BusyBox", str "busybox", str "v1.32.0", [], []⟩) :=
  ⟨rfl, by decide, rfl, rfl⟩

/-- C5 counterexample: the claim says quote-stripping removes exactly one
matching pair of surrounding quotes, preserves an unmatched quote and
keeps the inner quotes of a doubly-quoted value; the code (`strings.Trim`)
strips every boundary quote: the line `k="v` yields the value `v`, not
`"v`, and `k=""v""` yields `v`, not `"v"`. -/
theorem C5_keyval_cex :
    splitEqualsKeyVal (str "k=\"v") = some (str "k", str "v") ∧
    splitEqualsKeyVal (str "k=\"v") ≠ some (str "k", str "\"v") ∧
    splitEqualsKeyVal (str "k=\"\"v\"\"") = some (str "k", str "v") ∧
    splitEqualsKeyVal (str "k=\"\"v\"\"") ≠
      some (str "k", stripOneQuotePair (str "\"\"v\"\"")) :=
  ⟨rfl, by decide, rfl, by decide⟩

/-- C6 counterexample: a Result Record returned by the classifier can have
an empty Name — os-release `PRETTY_NAME` equal to a space followed by `x`
makes the Fallback Heuristic's first space-delimited segment empty. -/
theorem C6_nonempty_cex :
    ¬ ∀ (fs : FS) (lsb osr : RD) (r : LinuxDistro),
        discoverDistroFromProperties fs lsb osr = some r →
          r.ID ≠ [] ∧ r.Name ≠ [] := by
  intro h
  exact (h [] [] osrPretty ⟨[], str "unknown", str "unknown", [], osrPretty⟩ rfl).2 rfl

/-- C6 amended: every record the classifier returns has a non-empty ID,
and a non-empty Name unless the Fallback Heuristic's PRETTY_NAME branch is
taken with a PRETTY_NAME that starts with a space. -/
theorem C6_nonempty_amended (fs : FS) (lsb osr : RD) (r : LinuxDistro)
    (hr : discoverDistroFromProperties fs lsb osr = some r)
    (hn : ¬(getRD osr (str "NAME") = [] ∧
      (getRD osr (str "PRETTY_NAME")).head? = some ' ')) :
    r.ID ≠ [] ∧ r.Name ≠ [] := by
  rcases discover_cases fs lsb osr r hr with ⟨d, hd, hmatch⟩ | rfl
  · have hk := detOK_all fs lsb osr d hd r hmatch
    exact ⟨hk.1, hk.2.1⟩
  · exact ⟨bestGuess_id_ne lsb osr, bestGuess_name_ne lsb osr hn⟩

/-- Witness for the amended C6 at empty inputs (the Fallback Heuristic's
defaults). -/
theorem C6_nonempty_amended_witness :
    (⟨str "Unknown", str "unknown", str "unknown", [], []⟩ : LinuxDistro).ID ≠ [] ∧
    (⟨str "Unknown", str "unknown", str "unknown", [], []⟩ : LinuxDistro).Name ≠ [] :=
  C6_nonempty_amended [] [] [] _ rfl (by decide)

/-- C7 counterexample: with LSB `DISTRIB_ID = Foo` and os-release
`PRETTY_NAME` starting with a space, the claim's first-non-empty
resolution gives `Foo` (or `x`), while the code commits to the PRETTY_NAME
branch and produces the empty Name. -/
theorem C7_fallback_name_cex :
    (BestGuess lsbFoo osrPretty).Name ≠ claimC7Name lsbFoo osrPretty := by decide

/-- C7 amended: the Fallback Heuristic's Name is os-release NAME when
non-empty; otherwise, when PRETTY_NAME is non-empty, the prefix of
PRETTY_NAME up to the first space character (taken even when empty);
otherwise LSB DISTRIB_ID; otherwise os-release ID; otherwise `Unknown`. -/
theorem C7_fallback_name_amended (lsb osr : RD) :
    (BestGuess lsb osr).Name = amendedC7Name lsb osr := rfl

/-- C8: classification is a pure deterministic function of the filesystem
contents and the two property maps — two runs agree — and the returned
record carries both input maps unchanged (nothing is mutated). -/
theorem C8_deterministic (fs : FS) (lsb osr : RD) :
    discoverDistroFromProperties fs lsb osr = discoverDistroFromProperties fs lsb osr ∧
    ∀ r, discoverDistroFromProperties fs lsb osr = some r →
      r.LsbRelease = lsb ∧ r.OsRelease = osr := by
  refine ⟨rfl, fun r hr => ?_⟩
  rcases discover_cases fs lsb osr r hr with ⟨d, hd, hmatch⟩ | rfl
  · have hk := detOK_all fs lsb osr d hd r hmatch
    exact ⟨hk.2.2.1, hk.2.2.2⟩
  · exact ⟨rfl, rfl⟩

/-- Witness for C8 at the Oracle Linux test filesystem. -/
theorem C8_deterministic_witness :
    discoverDistroFromProperties fsC1 [] [] = discoverDistroFromProperties fsC1 [] [] ∧
    ((⟨str "Oracle Linux", str "ol", str "7.9", [], []⟩ : LinuxDistro).LsbRelease = [] ∧
     (⟨str "Oracle Linux", str "ol", str "7.9", [], []⟩ : LinuxDistro).OsRelease = []) :=
  ⟨(C8_deterministic fsC1 [] []).1, (C8_deterministic fsC1 [] []).2 _ rfl⟩

/-- C9: the os-release fast paths of the Oracle Linux, RHEL, Photon and
Slackware detectors demand a non-empty VERSION_ID besides the matching ID
— with the ID set but VERSION_ID empty or absent and the marker files
unresolved they report no match — unlike other single-field detectors
(Alpine, SLES) which match on the ID alone. -/
theorem C9_version_id_required :
    (∀ (fs : FS) (lsb osr : RD), getRD osr (str "ID") = str "ol" →
      getRD osr (str "VERSION_ID") = [] →
      readFileFunc fs [str "/etc/oracle-release"] = none →
      IsOracleLinux fs lsb osr = some (false, emptyDistro)) ∧
    (∀ (fs : FS) (lsb osr : RD), getRD osr (str "ID") = str "rhel" →
      getRD osr (str "VERSION_ID") = [] →
      readFileFunc fs [str "/etc/oracle-release"] = none →
      readFileFunc fs [str "/etc/redhat-release", str "/etc/redhat-version"] = none →
      IsRHEL fs lsb osr = some (false, emptyDistro)) ∧
    (∀ (fs : FS) (lsb osr : RD), getRD osr (str "ID") = str "photon" →
      getRD osr (str "VERSION_ID") = [] →
      readFileFunc fs [str "/etc/photon-release"] = none →
      IsPhoton fs lsb osr = some (false, emptyDistro)) ∧
    (∀ (fs : FS) (lsb osr : RD), getRD osr (str "ID") = str "slackware" →
      getRD osr (str "VERSION_ID") = [] →
      readFileFunc fs [str "/etc/slackware-version"] = none →
      IsSlackware fs lsb osr = some (false, emptyDistro)) ∧
    (∀ (fs : FS) (lsb osr : RD), getRD osr (str "ID") = str "alpine" →
      ∃ r, IsAlpine fs lsb osr = some (true, r) ∧
        r.Version = getRD osr (str "VERSION_ID")) ∧
    (∀ (fs : FS) (lsb osr : RD), getRD osr (str "ID") = str "sles" →
      ∃ r, IsSLES fs lsb osr = some (true, r)) := by
  refine ⟨?_, ?_, ?_, ?_, ?_, ?_⟩
  · intro fs lsb osr hid hv hf
    unfold IsOracleLinux
    rw [if_neg (by simp [hv]), hf]
  · intro fs lsb osr hid hv hfo hfr
    unfold IsRHEL
    rw [if_neg (by simp [hv])]
    have : IsOracleLinux fs lsb osr = some (false, emptyDistro) := by
      unfold IsOracleLinux
      rw [if_neg (by simp [hid]; intro h; exact absurd h (by decide)), hfo]
    rw [this, hfr]
  · intro fs lsb osr hid hv hf
    unfold IsPhoton
    rw [if_neg (by simp [hv]), hf]
  · intro fs lsb osr hid hv hf
    unfold IsSlackware
    rw [if_neg (by simp [hv]), hf]
  · intro fs lsb osr hid
    unfold IsAlpine
    rw [if_pos hid]
    exact ⟨_, rfl, rfl⟩
  · intro fs lsb osr hid
    unfold IsSLES
    rw [if_pos hid]
    exact ⟨_, rfl⟩

/-- Witness for C9 at concrete one-key os-release maps. -/
theorem C9_version_id_required_witness :
    IsOracleLinux [] [] [(str "ID", str "ol")] = some (false, emptyDistro) ∧
    IsRHEL [] [] [(str "ID", str "rhel")] = some (false, emptyDistro) ∧
    IsPhoton [] [] [(str "ID", str "photon")] = some (false, emptyDistro) ∧
    IsSlackware [] [] [(str "ID", str "slackware")] = some (false, emptyDistro) ∧
    (∃ r, IsAlpine [] [] [(str "ID", str "alpine")] = some (true, r) ∧
      r.Version = getRD [(str "ID", str "alpine")] (str "VERSION_ID")) ∧
    (∃ r, IsSLES [] [] [(str "ID", str "sles")] = some (true, r)) :=
  ⟨C9_version_id_required.1 [] [] _ rfl rfl rfl,
   C9_version_id_required.2.1 [] [] _ rfl rfl rfl rfl,
   C9_version_id_required.2.2.1 [] [] _ rfl rfl rfl,
   C9_version_id_required.2.2.2.1 [] [] _ rfl rfl rfl,
   C9_version_id_required.2.2.2.2.1 [] [] _ rfl,
   C9_version_id_required.2.2.2.2.2 [] [] _ rfl⟩

/-- C10: the classifier can return a record whose Version is the empty
string (not the literal `unknown`): os-release ID `alpine` with no
VERSION_ID and no readable `/etc/alpine-release` yields the Alpine record
with an empty Version. -/
theorem C10_empty_version :
    discoverDistroFromProperties [] [] [(str "ID", str "alpine")] =
      some ⟨str "Alpine Linux", str "alpine", [], [], [(str "ID", str "alpine")]⟩ ∧
    ([] : Str) ≠ str "unknown" :=
  ⟨rfl, by decide⟩

/-!
List lemmas for the key/value splitter proof.
-/

lemma dropWhile_append_all {p : Char → Bool} :
    ∀ {a : Str} (b : Str), (∀ c ∈ a, p c) → (a ++ b).dropWhile p = b.dropWhile p := by
  intro a
  induction a with
  | nil => intro b h; rfl
  | cons c t ih =>
    intro b h
    have hc : p c := h c (List.mem_cons_self c t)
    simp only [List.cons_append, List.dropWhile_cons, hc, if_true]
    exact ih b (fun x hx => h x (List.mem_cons_of_mem _ hx))

lemma dropWhile_cons_neg {p : Char → Bool} {c : Char} (t : Str) (hc : ¬ p c) :
    (c :: t).dropWhile p = c :: t := by
  simp [List.dropWhile_cons, hc]

lemma takeWhile_append_all {p : Char → Bool} :
    ∀ {a : Str} (b : Str), (∀ c ∈ a, p c) → (a ++ b).takeWhile p = a ++ b.takeWhile p := by
  intro a
  induction a with
  | nil => intro b h; rfl
  | cons c t ih =>
    intro b h
    have hc : p c := h c (List.mem_cons_self c t)
    simp only [List.cons_append, List.takeWhile_cons, hc, if_true]
    rw [ih b (fun x hx => h x (List.mem_cons_of_mem _ hx))]

lemma takeWhile_cons_neg {p : Char → Bool} {c : Char} (t : Str) (hc : ¬ p c) :
    (c :: t).takeWhile p = [] := by
  simp [List.takeWhile_cons, hc]

lemma takeWhile_congr {p q : Char → Bool} :
    ∀ {l : Str}, (∀ c ∈ l, p c = q c) → l.takeWhile p = l.takeWhile q := by
  intro l
  induction l with
  | nil => intro h; rfl
  | cons c t ih =>
    intro h
    have hc := h c (List.mem_cons_self c t)
    simp only [List.takeWhile_cons, hc]
    split
    · rw [ih (fun x hx => h x (List.mem_cons_of_mem _ hx))]
    · rfl

/-- When a list contains a character failing the predicate, `takeWhile` and
`dropWhile` over an extension stay inside the list. -/
lemma takeWhile_append_stops {p : Char → Bool} :
    ∀ {a : Str} (b : Str), a.dropWhile p ≠ [] →
      (a ++ b).takeWhile p = a.takeWhile p ∧
      (a ++ b).dropWhile p = a.dropWhile p ++ b := by
  intro a
  induction a with
  | nil => intro b h; exact absurd rfl h
  | cons c t ih =>
    intro b h
    by_cases hc : p c
    · simp only [List.dropWhile_cons, hc, if_true] at h
      have := ih b h
      simp only [List.cons_append, List.takeWhile_cons, List.dropWhile_cons, hc, if_true]
      exact ⟨by rw [this.1], this.2⟩
    · refine ⟨?_, ?_⟩ <;>
        simp [List.cons_append, List.takeWhile_cons, List.dropWhile_cons, hc]

lemma dropWhile_first {p : Char → Bool} :
    ∀ {l : Str} {c : Char} {cs : Str}, l.dropWhile p = c :: cs → ¬ p c ∧ c ∈ l := by
  intro l
  induction l with
  | nil => intro c cs h; cases h
  | cons a t ih =>
    intro c cs h
    by_cases ha : p a
    · simp only [List.dropWhile_cons, ha, if_true] at h
      obtain ⟨h1, h2⟩ := ih h
      exact ⟨h1, List.mem_cons_of_mem _ h2⟩
    · simp only [List.dropWhile_cons, ha, if_false, Bool.false_eq_true] at h
      cases h
      exact ⟨ha, List.mem_cons_self _ _⟩

/-- Failing attempts can be skipped in the descending key-split search. -/
lemma tryKs_skip (R tail : Str) :
    ∀ hi lo : Nat, lo ≤ hi → (∀ k, lo < k → k ≤ hi → tryK R tail k = none) →
      tryKs R tail hi = tryKs R tail lo := by
  intro hi
  induction hi with
  | zero => intro lo hlo _; rw [Nat.le_zero.mp hlo]
  | succ n ih =>
    intro lo hlo hfail
    rcases Nat.eq_or_lt_of_le hlo with rfl | hlt
    · rfl
    · have hlo' : lo ≤ n := Nat.lt_succ_iff.mp hlt
      have := hfail (n + 1) hlt (Nat.le_refl _)
      simp only [tryKs, this, Option.orElse, Option.none_orElse]
      exact ih lo hlo' (fun k h1 h2 => hfail k h1 (Nat.le_succ_of_le h2))

lemma dropWhile_eq_drop (p : Char → Bool) (l : Str) :
    l.drop (l.takeWhile p).length = l.dropWhile p := by
  induction l with
  | nil => rfl
  | cons c t ih =>
    by_cases hc : p c
    · simp [List.takeWhile_cons, List.dropWhile_cons, hc, ih]
    · simp [List.takeWhile_cons, List.dropWhile_cons, hc]

lemma goSpace_uniSpace {c : Char} (h : goSpace c) : uniSpace c := by
  simp only [goSpace, Bool.or_eq_true, beq_iff_eq] at h
  simp only [uniSpace, Bool.or_eq_true, beq_iff_eq]
  tauto

lemma svClass_of_goSpace {c : Char} (h : goSpace c) : svClass c = (c == ' ') := by
  simp [svClass, h]

/-- The value capture group behind the consumed equals sign: the maximal
whitespace run is skipped and the capture is the value together with the
spaces (only) that open the trailing whitespace. -/
lemma valueCapture_eq (ws2 value ws3 : Str)
    (hws2 : ∀ c ∈ ws2, goSpace c)
    (hws3 : ∀ c ∈ ws3, goSpace c)
    (hval : value ≠ [])
    (hvalClass : ∀ c ∈ value, svClass c)
    (hvalHead : ∀ c, value.head? = some c → ¬ goSpace c) :
    valueCapture (ws2 ++ (value ++ ws3)) = some (value ++ ws3.takeWhile (· == ' ')) := by
  obtain ⟨vc, vt, rfl⟩ : ∃ vc vt, value = vc :: vt := by
    cases value with
    | nil => exact absurd rfl hval
    | cons a b => exact ⟨a, b, rfl⟩
  have hvc : ¬ goSpace vc := hvalHead vc rfl
  have htw : (ws2 ++ (vc :: vt ++ ws3)).takeWhile goSpace = ws2 := by
    rw [takeWhile_append_all _ hws2, List.cons_append, takeWhile_cons_neg _ hvc,
      List.append_nil]
  have hcls : (vc :: vt ++ ws3).takeWhile svClass =
      (vc :: vt) ++ ws3.takeWhile (· == ' ') := by
    rw [show vc :: vt ++ ws3 = (vc :: vt) ++ ws3 from rfl,
      takeWhile_append_all _ hvalClass]
    congr 1
    exact (takeWhile_congr (fun c hc => (svClass_of_goSpace (hws3 c hc)).symm)).symm
  simp only [valueCapture, htw]
  rw [List.drop_left]
  simp only [List.cons_append]
  rw [← List.cons_append, hcls]
  simp

/-- `strings.TrimSpace` removes exactly the appended spaces when the value
itself neither starts nor ends with Unicode whitespace. -/
lemma trimSpaceGo_pad (value sp : Str) (hval : value ≠ [])
    (hsp : ∀ c ∈ sp, uniSpace c)
    (hhead : ∀ c, value.head? = some c → ¬ uniSpace c)
    (hlast : ∀ c, value.getLast? = some c → ¬ uniSpace c) :
    trimSpaceGo (value ++ sp) = value := by
  obtain ⟨vc, vt, rfl⟩ : ∃ vc vt, value = vc :: vt := by
    cases value with
    | nil => exact absurd rfl hval
    | cons a b => exact ⟨a, b, rfl⟩
  unfold trimSpaceGo trimBy trimEnd
  rw [List.cons_append, dropWhile_cons_neg _ (hhead vc rfl), ← List.cons_append,
    List.reverse_append,
    dropWhile_append_all _ (fun c hc => hsp c (List.mem_reverse.mp hc))]
  have hlastSome : (vc :: vt).getLast? = some ((vc :: vt).getLast (by simp)) :=
    List.getLast?_eq_getLast _ (by simp)
  cases hr : (vc :: vt).reverse with
  | nil => exact absurd (congrArg List.length hr) (by simp)
  | cons a tl =>
    have ha : a = (vc :: vt).getLast (by simp) := by
      have := List.head?_reverse (vc :: vt)
      rw [hr, hlastSome] at this
      simpa using this
    rw [dropWhile_cons_neg _ (ha ▸ hlast _ hlastSome), ← hr, List.reverse_reverse]

lemma mem_takeWhile_mem {p : Char → Bool} :
    ∀ {l : Str} {c : Char}, c ∈ l.takeWhile p → c ∈ l := by
  intro l
  induction l with
  | nil => intro c h; cases h
  | cons a t ih =>
    intro c h
    by_cases ha : p a
    · simp only [List.takeWhile_cons, ha, if_true] at h
      rcases List.mem_cons.mp h with rfl | h2
      · exact List.mem_cons_self _ _
      · exact List.mem_cons_of_mem _ (ih h2)
    · simp [List.takeWhile_cons, ha] at h

/-- Computation of the key/value regex on a well-formed line: arbitrary
whitespace around a whitespace-free, equals-free key and a value from the
class of the capture group; the raw captures are the key and the value
extended by the spaces opening the trailing whitespace. -/
lemma equalsSplit_eq (ws0 ws1 ws2 ws3 key value : Str)
    (hws0 : ∀ c ∈ ws0, goSpace c) (hws1 : ∀ c ∈ ws1, goSpace c)
    (hws2 : ∀ c ∈ ws2, goSpace c) (hws3 : ∀ c ∈ ws3, goSpace c)
    (hkey : key ≠ []) (hkeyWS : ∀ c ∈ key, ¬ goSpace c) (hkeyEq : '=' ∉ key)
    (hval : value ≠ []) (hvalClass : ∀ c ∈ value, svClass c) (hvalEq : '=' ∉ value)
    (hvalHead : ∀ c, value.head? = some c → ¬ goSpace c) :
    equalsSplit (ws0 ++ (key ++ (ws1 ++ '=' :: (ws2 ++ (value ++ ws3))))) =
      some (key, value ++ ws3.takeWhile (· == ' ')) := by
  obtain ⟨kc, kt, rfl⟩ : ∃ kc kt, key = kc :: kt := by
    cases key with
    | nil => exact absurd rfl hkey
    | cons a b => exact ⟨a, b, rfl⟩
  have hcap := valueCapture_eq ws2 value ws3 hws2 hws3 hval hvalClass hvalHead
  have hKeyB : ∀ c ∈ kc :: kt, (!goSpace c) = true := fun c hc => by
    simp [hkeyWS c hc]
  rcases ws1 with _ | ⟨w1c, w1t⟩
  case cons =>
    -- whitespace between the key and the equals sign: the key run is the key
    set u := ws2 ++ (value ++ ws3) with hu
    set t2 := (w1c :: w1t) ++ '=' :: u with ht2
    have h1 : (ws0 ++ ((kc :: kt) ++ t2)).dropWhile goSpace = (kc :: kt) ++ t2 := by
      rw [dropWhile_append_all _ hws0]
      exact dropWhile_cons_neg _ (hkeyWS kc (List.mem_cons_self _ _))
    have hW0 : t2.takeWhile (fun c => !goSpace c) = [] := by
      rw [ht2, List.cons_append]
      exact takeWhile_cons_neg _ (by simp [hws1 w1c (List.mem_cons_self _ _)])
    have hR : ((kc :: kt) ++ t2).takeWhile (fun c => !goSpace c) = kc :: kt := by
      rw [takeWhile_append_all _ hKeyB, hW0, List.append_nil]
    have hRne : ¬ ((kc :: kt) = ([] : Str)) := by simp
    have htail : ((kc :: kt) ++ t2).drop (kc :: kt).length = t2 :=
      List.drop_left _ _
    have hfirst : tryK (kc :: kt) t2 (kc :: kt).length =
        some (kc :: kt, value ++ ws3.takeWhile (· == ' ')) := by
      unfold tryK
      rw [if_pos rfl]
      have hw1 : t2.takeWhile goSpace = w1c :: w1t := by
        rw [ht2, takeWhile_append_all _ hws1, takeWhile_cons_neg _ (by decide),
          List.append_nil]
      have hdrop : t2.drop (w1c :: w1t).length = '=' :: u := by
        rw [ht2]
        exact List.drop_left _ _
      rw [hw1, hdrop]
      show (valueCapture u).map (fun v => (kc :: kt, v)) =
        some (kc :: kt, value ++ ws3.takeWhile (· == ' '))
      rw [hcap]
      rfl
    simp only [equalsSplit, h1, hR, htail, if_neg hRne]
    simp only [List.length_cons, tryKs]
    rw [show kt.length + 1 = (kc :: kt).length from rfl, hfirst]
    rfl
  case nil =>
    simp only [List.nil_append]
    set u := ws2 ++ (value ++ ws3) with hu
    set utw := u.takeWhile (fun c => !goSpace c) with hutw
    set tailD := u.drop utw.length with htailD
    have hmemutw : ∀ c ∈ utw, c ∈ value := by
      intro c hc
      have hng : (!goSpace c) = true :=
        List.mem_takeWhile_imp (p := fun c => !goSpace c) (l := u) (hutw ▸ hc)
      have hcu : c ∈ u := mem_takeWhile_mem hc
      rcases List.mem_append.mp hcu with h2 | hcv
      · exact absurd (hws2 c h2) (by simpa using hng)
      · rcases List.mem_append.mp hcv with h3 | h3
        · exact h3
        · exact absurd (hws3 c h3) (by simpa using hng)
    have hmemD : ∀ c ∈ tailD, ¬ goSpace c → c ∈ value := by
      intro c hc hng
      have hcu : c ∈ u := List.mem_of_mem_drop hc
      rcases List.mem_append.mp hcu with h2 | hcv
      · exact absurd (hws2 c h2) hng
      · rcases List.mem_append.mp hcv with h3 | h3
        · exact h3
        · exact absurd (hws3 c h3) hng
    have h1 : (ws0 ++ ((kc :: kt) ++ '=' :: u)).dropWhile goSpace =
        (kc :: kt) ++ '=' :: u := by
      rw [dropWhile_append_all _ hws0]
      exact dropWhile_cons_neg _ (hkeyWS kc (List.mem_cons_self _ _))
    have hWdef : ('=' :: u).takeWhile (fun c => !goSpace c) = '=' :: utw := by
      rw [List.takeWhile_cons]
      simp only [show ((!goSpace '=') = true) from by decide, if_true, hutw]
    have hR : ((kc :: kt) ++ '=' :: u).takeWhile (fun c => !goSpace c) =
        (kc :: kt) ++ '=' :: utw := by
      rw [takeWhile_append_all _ hKeyB, hWdef]
    have hRne : ¬ ((kc :: kt) ++ '=' :: utw = ([] : Str)) := by simp
    have htail : ((kc :: kt) ++ '=' :: u).drop ((kc :: kt) ++ '=' :: utw).length =
        tailD := by
      have hlen : ((kc :: kt) ++ '=' :: utw).length =
          (kc :: kt).length + (utw.length + 1) := by
        rw [List.length_append]; rfl
      rw [hlen, List.drop_append, List.drop_succ_cons]
    have hfailTop : tryK ((kc :: kt) ++ '=' :: utw) tailD
        ((kc :: kt) ++ '=' :: utw).length = none := by
      unfold tryK
      rw [if_pos rfl]
      rw [dropWhile_eq_drop goSpace tailD]
      cases hX : tailD.dropWhile goSpace with
      | nil => rfl
      | cons c cs =>
        obtain ⟨hcng, hcmem⟩ := dropWhile_first hX
        have hcval : c ∈ value := hmemD c hcmem hcng
        have hcne : c ≠ '=' := fun e => hvalEq (e ▸ hcval)
        split
        · rename_i heq
          injection heq with h1 h2
          exact absurd h1 hcne
        · rfl
    have hfailMid : ∀ k, (kc :: kt).length < k → k < ((kc :: kt) ++ '=' :: utw).length →
        tryK ((kc :: kt) ++ '=' :: utw) tailD k = none := by
      intro k h1k h2k
      unfold tryK
      rw [if_neg (Nat.ne_of_lt h2k)]
      rw [if_neg]
      intro hcond
      obtain ⟨hg, _⟩ := hcond
      rw [List.getElem?_append_right (Nat.le_of_lt h1k)] at hg
      obtain ⟨j, hj⟩ : ∃ j, k - (kc :: kt).length = j + 1 :=
        ⟨k - (kc :: kt).length - 1, by omega⟩
      rw [hj, List.getElem?_cons_succ] at hg
      obtain ⟨hlt, heq⟩ := List.getElem?_eq_some.mp hg
      have : '=' ∈ utw := heq ▸ List.getElem_mem hlt
      exact hvalEq (hmemutw _ this)
    have hglue : utw ++ tailD = u := by
      rw [htailD, hutw, dropWhile_eq_drop, List.takeWhile_append_dropWhile]
    have hsucc : tryK ((kc :: kt) ++ '=' :: utw) tailD (kc :: kt).length =
        some (kc :: kt, value ++ ws3.takeWhile (· == ' ')) := by
      unfold tryK
      rw [if_neg (by simp [List.length_append])]
      rw [if_pos ⟨by
        rw [List.getElem?_append_right (Nat.le_refl _)]
        simp, by simp⟩]
      have hdropR : ((kc :: kt) ++ '=' :: utw).drop ((kc :: kt).length + 1) = utw := by
        rw [List.drop_append, List.drop_succ_cons, List.drop_zero]
      rw [hdropR, hglue, hcap, List.take_left]
      rfl
    simp only [equalsSplit, h1, hR, htail, if_neg hRne]
    rw [tryKs_skip _ _ _ (kc :: kt).length (by simp [List.length_append])
      (fun k hk1 hk2 => by
        rcases Nat.eq_or_lt_of_le hk2 with rfl | hlt
        · exact hfailTop
        · exact hfailMid k hk1 hlt)]
    simp only [List.length_cons, tryKs]
    rw [show kt.length + 1 = (kc :: kt).length from rfl, hsucc]
    rfl

/-- C5 amended: for every line of the form KEY=VALUE — arbitrary Go-regex
whitespace around the key and the value, the key non-empty without
whitespace, `=` or a leading `#`, the value non-empty, of the value class
`[\S ]`, without `=`, and not starting or ending in Unicode whitespace —
the splitter returns the exact key together with the value stripped of ALL
its leading and trailing double-quote characters (so quote-stripping is
not one matching pair: every boundary quote goes, an unmatched quote is
removed, and a doubly-quoted value loses both layers). -/
theorem C5_keyval_amended (ws0 ws1 ws2 ws3 key value : Str)
    (hws0 : ∀ c ∈ ws0, goSpace c) (hws1 : ∀ c ∈ ws1, goSpace c)
    (hws2 : ∀ c ∈ ws2, goSpace c) (hws3 : ∀ c ∈ ws3, goSpace c)
    (hkey : key ≠ []) (hkeyWS : ∀ c ∈ key, ¬ goSpace c) (hkeyEq : '=' ∉ key)
    (hkeyHash : key.head? ≠ some '#')
    (hval : value ≠ []) (hvalClass : ∀ c ∈ value, svClass c) (hvalEq : '=' ∉ value)
    (hvalHeadB : value.head?.all (fun c => !uniSpace c))
    (hvalLastB : value.getLast?.all (fun c => !uniSpace c)) :
    splitEqualsKeyVal (ws0 ++ (key ++ (ws1 ++ '=' :: (ws2 ++ (value ++ ws3))))) =
      some (key, trimQuotes value) := by
  have hvalHead : ∀ c, value.head? = some c → ¬ uniSpace c := by
    intro c hc
    rw [hc] at hvalHeadB
    simpa using hvalHeadB
  have hvalLast : ∀ c, value.getLast? = some c → ¬ uniSpace c := by
    intro c hc
    rw [hc] at hvalLastB
    simpa using hvalLastB
  have hvalHeadG : ∀ c, value.head? = some c → ¬ goSpace c :=
    fun c hc hg => hvalHead c hc (goSpace_uniSpace hg)
  have hES := equalsSplit_eq ws0 ws1 ws2 ws3 key value hws0 hws1 hws2 hws3 hkey
    hkeyWS hkeyEq hval hvalClass hvalEq hvalHeadG
  have hne : ws0 ++ (key ++ (ws1 ++ '=' :: (ws2 ++ (value ++ ws3)))) ≠ [] := by
    intro h
    rcases List.append_eq_nil.mp h with ⟨-, h2⟩
    rcases List.append_eq_nil.mp h2 with ⟨hk, -⟩
    exact hkey hk
  have hhash : (ws0 ++ (key ++ (ws1 ++ '=' :: (ws2 ++ (value ++ ws3))))).head? ≠
      some '#' := by
    cases ws0 with
    | nil =>
      obtain ⟨kc, kt, rfl⟩ : ∃ kc kt, key = kc :: kt := by
        cases key with
        | nil => exact absurd rfl hkey
        | cons a b => exact ⟨a, b, rfl⟩
      simpa using hkeyHash
    | cons c t =>
      intro h
      simp only [List.cons_append, List.head?_cons, Option.some.injEq] at h
      have := hws0 c (List.mem_cons_self _ _)
      rw [h] at this
      exact absurd this (by decide)
  have hsp : ∀ c ∈ ws3.takeWhile (· == ' '), uniSpace c := by
    intro c hc
    have : (c == ' ') = true :=
      List.mem_takeWhile_imp (p := (· == ' ')) (l := ws3) hc
    have : c = ' ' := by simpa using this
    simp [this, uniSpace]
  unfold splitEqualsKeyVal
  rw [if_neg hne, if_neg hhash, hES]
  show some (key, trimQuotes (trimSpaceGo (value ++ ws3.takeWhile (· == ' ')))) =
    some (key, trimQuotes value)
  rw [trimSpaceGo_pad value _ hval hsp hvalHead hvalLast]

/-- Witness for the amended C5 at the repository's own whitespace test
line, with a doubly-quoted value. -/
theorem C5_keyval_amended_witness :
    splitEqualsKeyVal (str "   " ++ (str "a_single_key" ++ (str "\t " ++ '=' ::
      (str "   " ++ (str "\"\"a_single_value\"\"" ++ str "\t\r\n"))))) =
      some (str "a_single_key", trimQuotes (str "\"\"a_single_value\"\"")) :=
  C5_keyval_amended (str "   ") (str "\t ") (str "   ") (str "\t\r\n")
    (str "a_single_key") (str "\"\"a_single_value\"\"")
    (by decide) (by decide) (by decide) (by decide) (by decide) (by decide)
    (by decide) (by decide) (by decide) (by decide) (by decide) (by decide)
    (by decide)
